import Mathlib

/-!
Verification development for the Reimint consensus core of the rei repository.

The central artifact is a shallow embedding of the `StateMachine` class from
`packages/core/src/consensus/reimint/state.ts`.  Stateful methods become
explicit state-passing functions returning a `Res` (post-state, emitted
outputs, optional thrown error), mirroring the JavaScript semantics in which
mutations performed before a `throw` persist and the message loop catches
every error.  Collaborator classes that are not part of the provided sources
(`VoteSet`, `HeightVoteSet`, `ValidatorSet`) are modelled from the
specification, as marked in their doc comments.  A second, independent
module embeds the block-hash computation of `Reimint` (`calcBlockHeaderRawHash`,
`generateFinalizedBlock`).
-/

namespace Rei

/-- Byte strings are lists of byte values. -/
abbrev Bytes := List Nat

/-- Modelled from the spec: the all-zero 32-byte hash denotes "nil". -/
def EMPTY_HASH : Bytes := List.replicate 32 0

/-- Source `utils.isEmptyHash`: a hash is empty iff it equals `EMPTY_HASH`. -/
def isEmptyHash (h : Bytes) : Bool := h = EMPTY_HASH

/-- Vote types from `vote.ts` (spec section 3): Prevote, Precommit, Proposal. -/
inductive VoteType
  | Prevote
  | Precommit
  | Proposal
deriving DecidableEq, Repr

/-- Round step types, source `state.ts` enum `RoundStepType` (values 1..8). -/
inductive RoundStepType
  | NewHeight
  | NewRound
  | Propose
  | Prevote
  | PrevoteWait
  | Precommit
  | PrecommitWait
  | Commit
deriving DecidableEq, Repr

/-- Numeric value of a `RoundStepType`, as in the source enum (NewHeight = 1). -/
def RoundStepType.idx : RoundStepType → Nat
  | .NewHeight => 1
  | .NewRound => 2
  | .Propose => 3
  | .Prevote => 4
  | .PrevoteWait => 5
  | .Precommit => 6
  | .PrecommitWait => 7
  | .Commit => 8

/-- Modelled from the spec: a block is identified by its reimint block hash;
the state machine only ever inspects blocks through `Block_hash`. -/
structure Block where
  bhash : Bytes
deriving DecidableEq, Repr

/-- Source `extraData.Block_hash`: the consensus hash of a block. -/
def Block_hash (b : Block) : Bytes := b.bhash

/-- A signed ballot (spec section 3).  `chainId`, `timestamp` and the raw
signature are omitted; `validator` is the address recovered from the
signature (source `vote.validator()`). -/
structure Vote where
  type : VoteType
  height : Nat
  round : Int
  hash : Bytes
  index : Nat
  validator : Nat
deriving DecidableEq, Repr

/-- A signed proposal (spec section 3).  `signer` is the address recovered
from the signature, used by `validateSignature`. -/
structure Proposal where
  type : VoteType
  height : Nat
  round : Int
  POLRound : Int
  hash : Bytes
  signer : Nat
deriving DecidableEq, Repr

/-- Modelled from the spec (section 3): a validator is an address with a
positive voting power plus a signed proposer-priority accumulator. -/
structure Validator where
  addr : Nat
  votingPower : Nat
  priority : Int
deriving DecidableEq, Repr

/-- Modelled from the spec (section 4.1): an ordered validator list plus the
validator selected by the last priority increment (or the seeded proposer). -/
structure ValidatorSet where
  vals : List Validator
  proposerAddr : Nat
deriving DecidableEq, Repr

/-- Total voting power of a validator set. -/
def ValidatorSet.totalVotingPower (vs : ValidatorSet) : Nat :=
  vs.vals.foldl (fun a v => a + v.votingPower) 0

/-- Voting powers listed by validator index. -/
def ValidatorSet.valPowers (vs : ValidatorSet) : List Nat :=
  vs.vals.map (·.votingPower)

/-- Modelled from the spec (section 4.1): the validator with the highest
priority, ties broken by the smaller address. -/
def selectProposer (vals : List Validator) : Nat :=
  match vals.foldl
      (fun best v =>
        match best with
        | none => some v
        | some b =>
          if v.priority > b.priority ∨ (v.priority = b.priority ∧ v.addr < b.addr)
          then some v else some b)
      none with
  | some v => v.addr
  | none => 0

/-- Ceiling division for nonnegative integers, used by the priority clamp. -/
def ceilDivInt (a b : Int) : Int := (a + b - 1) / b

/-- Modelled from the spec (section 4.1), one iteration of
`incrementProposerPriority`: (1) add each validator's voting power to its
priority; (2) re-center priorities around zero; (3) if the spread exceeds
`2 * P`, scale every priority down by `ceil(diff / (2 * P))`; (4) select the
highest-priority validator (address tiebreak); (5) subtract `P` from the
selected validator's priority. -/
def incrementOnce (vs : ValidatorSet) : ValidatorSet :=
  let p : Int := vs.totalVotingPower
  let vals1 := vs.vals.map (fun v => { v with priority := v.priority + v.votingPower })
  let n : Int := vals1.length
  let sum : Int := vals1.foldl (fun a v => a + v.priority) 0
  let avg : Int := if n = 0 then 0 else sum / n
  let vals2 := vals1.map (fun v => { v with priority := v.priority - avg })
  let pmax : Int := vals2.foldl (fun a v => max a v.priority) ((vals2.headD ⟨0, 0, 0⟩).priority)
  let pmin : Int := vals2.foldl (fun a v => min a v.priority) ((vals2.headD ⟨0, 0, 0⟩).priority)
  let diff : Int := pmax - pmin
  let vals3 :=
    if diff > 2 * p ∧ p > 0 then
      let d := ceilDivInt diff (2 * p)
      vals2.map (fun v => { v with priority := v.priority / d })
    else vals2
  let prop := selectProposer vals3
  { vals := vals3.map (fun v => if v.addr = prop then { v with priority := v.priority - p } else v),
    proposerAddr := prop }

/-- Modelled from the spec (section 4.1): iterate `incrementOnce`. -/
def ValidatorSet.incrementProposerPriority (vs : ValidatorSet) : Nat → ValidatorSet
  | 0 => vs
  | Nat.succ k => (incrementOnce vs).incrementProposerPriority k

/-- Source `validators.proposer()`: the cached selected proposer address. -/
def ValidatorSet.proposer (vs : ValidatorSet) : Nat := vs.proposerAddr

/-- Source `validators.getIndexByAddress(addr)`. -/
def ValidatorSet.getIndexByAddress (vs : ValidatorSet) (a : Nat) : Option Nat :=
  vs.vals.findIdx? (fun v => v.addr = a)

/-- Errors thrown by the embedded code: the dedicated `ConflictingVotesError`
and everything else by message. -/
inductive Err
  | conflicting (voteA voteB : Vote)
  | other (msg : String)
deriving DecidableEq, Repr

/-- Modelled from the spec (section 4.2): one VoteSet per (height, round,
type): votes keyed by validator index, the voting powers of the validator
set, and the first two-thirds-majority block hash `maj23` (set once). -/
structure VoteSet where
  height : Nat
  round : Int
  type : VoteType
  valPowers : List Nat
  votes : List Vote
  maj23 : Option Bytes
deriving DecidableEq, Repr

/-- Fresh empty vote set for a (height, round, type). -/
def VoteSet.new (h : Nat) (r : Int) (t : VoteType) (powers : List Nat) : VoteSet :=
  ⟨h, r, t, powers, [], none⟩

/-- Total voting power `P` of the tallied validator set. -/
def VoteSet.totalPower (vs : VoteSet) : Nat := vs.valPowers.foldl (· + ·) 0

/-- The vote already stored for a validator index, if any. -/
def VoteSet.getByIndex (vs : VoteSet) (i : Nat) : Option Vote :=
  vs.votes.find? (fun v => v.index = i)

/-- Voting power of a validator index (0 when out of range). -/
def VoteSet.powerOf (vs : VoteSet) (i : Nat) : Nat := vs.valPowers.getD i 0

/-- Accumulated voting power behind one block hash. -/
def VoteSet.blockPower (vs : VoteSet) (h : Bytes) : Nat :=
  (vs.votes.filter (fun v => v.hash = h)).foldl (fun a v => a + vs.powerOf v.index) 0

/-- Accumulated voting power of all voters. -/
def VoteSet.sumPower (vs : VoteSet) : Nat :=
  vs.votes.foldl (fun a v => a + vs.powerOf v.index) 0

/-- Spec 4.2: `hasTwoThirdsAny()` holds iff `sum > 2P/3`. -/
def VoteSet.hasTwoThirdsAny (vs : VoteSet) : Bool :=
  3 * vs.sumPower > 2 * vs.totalPower

/-- Spec 4.2: `hasTwoThirdsMajority()` holds iff `maj23` is set. -/
def VoteSet.hasTwoThirdsMajority (vs : VoteSet) : Bool := vs.maj23.isSome

/-- Modelled from the spec (section 4.2), `VoteSet.addVote`: reject
height/round/type mismatch and out-of-range indices; a second differing vote
from one index raises `ConflictingVotes` (a duplicate is ignored); otherwise
store the vote and set `maj23` the first time a hash's power exceeds `2P/3`. -/
def VoteSet.addVote (vs : VoteSet) (v : Vote) : Except Err VoteSet :=
  if ¬(v.height = vs.height ∧ v.round = vs.round ∧ v.type = vs.type) then
    Except.error (Err.other "vote set mismatch")
  else if vs.valPowers.length ≤ v.index then
    Except.error (Err.other "invalid validator index")
  else
    match vs.getByIndex v.index with
    | some w =>
      if w.hash = v.hash then Except.ok vs
      else Except.error (Err.conflicting w v)
    | none =>
      let vs1 := { vs with votes := vs.votes ++ [v] }
      if 3 * vs1.blockPower v.hash > 2 * vs1.totalPower ∧ vs.maj23 = none then
        Except.ok { vs1 with maj23 := some v.hash }
      else
        Except.ok vs1

/-- One round's pair of vote sets inside a `HeightVoteSet`. -/
structure RoundVoteSet where
  prevotes : VoteSet
  precommits : VoteSet
deriving DecidableEq, Repr

/-- Modelled from the spec (section 4.3): the union of all per-round vote
sets at the current height plus the peer catchup-round accounting. -/
structure HeightVoteSet where
  height : Nat
  valPowers : List Nat
  round : Int
  rvs : List (Int × RoundVoteSet)
  catchup : List (String × List Int)
deriving DecidableEq, Repr

/-- Fresh round vote set pair. -/
def RoundVoteSet.new (h : Nat) (r : Int) (powers : List Nat) : RoundVoteSet :=
  ⟨VoteSet.new h r VoteType.Prevote powers, VoteSet.new h r VoteType.Precommit powers⟩

/-- Association-list lookup for round vote sets. -/
def lookupRvs : List (Int × RoundVoteSet) → Int → Option RoundVoteSet
  | [], _ => none
  | (r, x) :: rest, k => if r = k then some x else lookupRvs rest k

/-- Association-list update (insert if absent). -/
def insertRvs (l : List (Int × RoundVoteSet)) (k : Int) (x : RoundVoteSet) :
    List (Int × RoundVoteSet) :=
  match lookupRvs l k with
  | some _ => l
  | none => l ++ [(k, x)]

/-- Fresh `HeightVoteSet` (source constructor): current round 0 with its
round vote sets allocated. -/
def HeightVoteSet.new (h : Nat) (powers : List Nat) : HeightVoteSet :=
  ⟨h, powers, 0, [(0, RoundVoteSet.new h 0 powers)], []⟩

/-- Source `votes.prevotes(round)`. -/
def HeightVoteSet.prevotes (hvs : HeightVoteSet) (r : Int) : Option VoteSet :=
  (lookupRvs hvs.rvs r).map (·.prevotes)

/-- Source `votes.precommits(round)`. -/
def HeightVoteSet.precommits (hvs : HeightVoteSet) (r : Int) : Option VoteSet :=
  (lookupRvs hvs.rvs r).map (·.precommits)

/-- Allocate any missing round vote sets for rounds `0..r`. -/
def ensureRounds (hvs : HeightVoteSet) (r : Int) : HeightVoteSet :=
  let ks := (List.range (r.toNat + 1)).map Int.ofNat
  { hvs with rvs := ks.foldl (fun acc k => insertRvs acc k (RoundVoteSet.new hvs.height k hvs.valPowers)) hvs.rvs }

/-- Modelled from the spec (section 4.3), `setRound(r)`: track rounds up to
`r`, allocating the missing ones; existing rounds are never touched. -/
def HeightVoteSet.setRound (hvs : HeightVoteSet) (r : Int) : HeightVoteSet :=
  if r < hvs.round then hvs
  else { ensureRounds hvs r with round := r }

/-- Modelled from the spec (section 4.3), `HeightVoteSet.addVote(v, peerId)`:
dispatch to the round's prevote/precommit set; a vote for a round beyond the
current one is accepted only while the sending peer has seeded fewer than two
catchup rounds. -/
def HeightVoteSet.addVote (hvs : HeightVoteSet) (v : Vote) (peerId : String) :
    Except Err HeightVoteSet :=
  if ¬(v.type = VoteType.Prevote ∨ v.type = VoteType.Precommit) then
    Except.error (Err.other "invalid vote type")
  else
    match lookupRvs hvs.rvs v.round with
    | some rv =>
      match (if v.type = VoteType.Prevote then rv.prevotes.addVote v else rv.precommits.addVote v) with
      | Except.error e => Except.error e
      | Except.ok vs =>
        let rv' := if v.type = VoteType.Prevote then { rv with prevotes := vs } else { rv with precommits := vs }
        Except.ok { hvs with rvs := hvs.rvs.map (fun p => if p.1 = v.round then (p.1, rv') else p) }
    | none =>
      let rounds := ((hvs.catchup.find? (fun p => p.1 = peerId)).map (·.2)).getD []
      if rounds.length < 2 then
        let rv := RoundVoteSet.new hvs.height v.round hvs.valPowers
        match (if v.type = VoteType.Prevote then rv.prevotes.addVote v else rv.precommits.addVote v) with
        | Except.error e => Except.error e
        | Except.ok vs =>
          let rv' := if v.type = VoteType.Prevote then { rv with prevotes := vs } else { rv with precommits := vs }
          let catchup' :=
            match hvs.catchup.find? (fun p => p.1 = peerId) with
            | some _ => hvs.catchup.map (fun p => if p.1 = peerId then (p.1, p.2 ++ [v.round]) else p)
            | none => hvs.catchup ++ [(peerId, [v.round])]
          Except.ok { hvs with rvs := hvs.rvs ++ [(v.round, rv')], catchup := catchup' }
      else
        Except.error (Err.other "unwanted round")

/-- Modelled from the spec (section 4.3), `POLInfo()`: the greatest round
`r ≤ current` whose prevotes have a non-nil `maj23`, with that hash. -/
def HeightVoteSet.POLInfo (hvs : HeightVoteSet) : Option (Int × Bytes) :=
  ((List.range (hvs.round.toNat + 1)).reverse.map Int.ofNat).findSome?
    (fun r =>
      match (hvs.prevotes r).bind (·.maj23) with
      | some m => if isEmptyHash m then none else some (r, m)
      | none => none)

/-! ## State machine configuration (source `state.ts` lines 84-108) -/

/-- Source constant `SkipTimeoutCommit`. -/
def SkipTimeoutCommit : Bool := true

/-- Source constant `WaitForTxs`. -/
def WaitForTxs : Bool := true

/-- Source constant `CreateEmptyBlocksInterval` (zero in the source). -/
def CreateEmptyBlocksInterval : Int := 0

/-- Source `proposeDuration(round)`. -/
def proposeDuration (round : Int) : Int := 40 + 1 * round

/-- Source `prevoteDuration(round)`. -/
def prevoteDuration (round : Int) : Int := 10 + 1 * round

/-- Source `precommitDutaion(round)` (name kept as in the source). -/
def precommitDutaion (round : Int) : Int := 10 + 1 * round

/-- Source `commitTimeout(time)`. -/
def commitTimeoutF (time : Nat) : Nat := 10 + time

/-- Modelled from the spec: wall-clock readings (`Date.now()`) never influence
the verified claims; the clock is embedded as a constant. -/
def dateNow : Nat := 0

/-- Source `TimeoutInfo`. -/
structure TimeoutInfo where
  duration : Int
  height : Nat
  round : Int
  step : RoundStepType
deriving DecidableEq, Repr

/-- Tags identifying which state-machine transition a call site invokes. -/
inductive CallTag
  | enterNewRound
  | enterPropose
  | enterPrevote
  | enterPrevoteWait
  | enterPrecommit
  | enterPrecommitWait
  | enterCommit
  | tryFinalizeCommit
deriving DecidableEq, Repr

/-- Observable effects of the state machine: emitted events, scheduled
timeouts, signed votes, queue pushes, evidence reports, plus instrumentation
markers recording invoked transitions (`call`), executed `handleTimeout`
switch-case bodies (`timeoutCase`) and lock clears (`unlock`, matching the
source's `TODO: emit unlock event` comments). -/
inductive Output
  | newStep (h : Nat) (r : Int) (st : RoundStepType)
  | hasVote (h : Nat) (r : Int) (t : VoteType) (i : Nat)
  | getProposalBlock (h : Bytes)
  | newValidBlock (h : Nat) (r : Int) (hash : Option Bytes) (isCommit : Bool)
  | signedVote (t : VoteType) (hash : Bytes)
  | scheduleTimeout (ti : TimeoutInfo)
  | pushProposal (p : Proposal)
  | pushBlock (b : Block)
  | call (tag : CallTag) (h : Nat) (r : Int)
  | unlock
  | reportConflicting (voteA voteB : Vote)
  | processBlock (b : Block)
  | timeoutCase (st : RoundStepType)
deriving DecidableEq, Repr

/-- The mutable fields of the `StateMachine` class (source lines 110-154)
plus the fixed collaborators it reads: `chainId`, the optional signer
address, and the worker's pending block (used by `createBlockAndProposal`). -/
structure SMState where
  chainId : Nat
  signer : Option Nat
  pendingBlock : Option Block
  parentHash : Bytes
  triggeredTimeoutPrecommit : Bool
  height : Nat
  round : Int
  step : RoundStepType
  startTime : Nat
  commitTime : Option Nat
  validators : ValidatorSet
  proposal : Option Proposal
  proposalBlockHash : Option Bytes
  proposalBlock : Option Block
  lockedRound : Int
  lockedBlock : Option Block
  validRound : Int
  validBlock : Option Block
  votes : HeightVoteSet
  commitRound : Int
deriving DecidableEq, Repr

/-- Result of running a state-machine method: the post-state (mutations made
before a throw persist, as in JavaScript), the outputs emitted, and the
thrown error if any. -/
structure Res where
  s : SMState
  out : List Output
  err : Option Err
deriving DecidableEq, Repr

/-- Normal return with no outputs. -/
def Res.ok (s : SMState) : Res := ⟨s, [], none⟩

/-- Normal return emitting one output. -/
def Res.out1 (s : SMState) (o : Output) : Res := ⟨s, [o], none⟩

/-- A thrown error: execution of the remaining statements is skipped. -/
def Res.fail (s : SMState) (e : Err) : Res := ⟨s, [], some e⟩

/-- Sequencing: run `f` on the post-state unless an error was thrown. -/
def Res.andThen (r : Res) (f : SMState → Res) : Res :=
  match r.err with
  | some _ => r
  | none =>
    let r2 := f r.s
    ⟨r2.s, r.out ++ r2.out, r2.err⟩

/-- Source `newStep()`: emit a `NewRoundStep` message. -/
def newStep (s : SMState) : Res :=
  Res.out1 s (Output.newStep s.height s.round s.step)

/-- Source `signVote(type, hash)` (lines 480-505): returns silently without a
signer or when our address is not in the validator set; otherwise signs and
pushes the vote into the machine's own queue (summarized by the
`signedVote` output). -/
def signVote (s : SMState) (t : VoteType) (hash : Bytes) : Res :=
  match s.signer with
  | none => Res.ok s
  | some addr =>
    match s.validators.getIndexByAddress addr with
    | none => Res.ok s
    | some _ => Res.out1 s (Output.signedVote t hash)

/-- Source `isProposalComplete()` (lines 246-256). -/
def isProposalComplete (s : SMState) : Bool :=
  match s.proposal, s.proposalBlock with
  | some p, some _ =>
    if p.POLRound < 0 then true
    else ((s.votes.prevotes p.POLRound).map (·.hasTwoThirdsMajority)).getD false
  | _, _ => false

/-- Source `enterPrevote(height, round)` (lines 542-572). -/
def enterPrevote (s : SMState) (height : Nat) (round : Int) : Res :=
  if ¬(s.height = height) ∨ round < s.round ∨
      (s.round = round ∧ RoundStepType.Prevote.idx ≤ s.step.idx) then
    Res.ok s
  else
    let update := fun (s : SMState) =>
      newStep { s with round := round, step := RoundStepType.Prevote }
    match s.lockedBlock with
    | some lb => (signVote s VoteType.Prevote (Block_hash lb)).andThen update
    | none =>
      match s.proposalBlock with
      | none => (signVote s VoteType.Prevote EMPTY_HASH).andThen update
      | some pb =>
        -- the source's `const validate = 1` is truthy, so the valid branch runs
        (signVote s VoteType.Prevote (Block_hash pb)).andThen update

/-- Source `decideProposal` with `createBlockAndProposal` (lines 441-478):
reuse the valid block if present, otherwise take the worker's pending block
(throwing when it is missing); either way push the proposal and block
messages into the machine's own queue. -/
def decideProposal (s : SMState) (height : Nat) (round : Int) : Res :=
  match s.validBlock with
  | some b =>
    let proposal : Proposal :=
      { type := VoteType.Proposal, height := height, round := round,
        POLRound := s.validRound, hash := Block_hash b, signer := s.signer.getD 0 }
    (Res.out1 s (Output.pushProposal proposal)).andThen
      (fun s => Res.out1 s (Output.pushBlock b))
  | none =>
    match s.pendingBlock with
    | none => Res.fail s (Err.other "missing pending block")
    | some b =>
      let proposal : Proposal :=
        { type := VoteType.Proposal, height := height, round := round,
          POLRound := s.validRound, hash := Block_hash b, signer := s.signer.getD 0 }
      (Res.out1 s (Output.pushProposal proposal)).andThen
        (fun s => Res.out1 s (Output.pushBlock b))

/-- Source `enterPropose(height, round)` (lines 507-540). -/
def enterPropose (s : SMState) (height : Nat) (round : Int) : Res :=
  if ¬(s.height = height) ∨ round < s.round ∨
      (s.round = round ∧ RoundStepType.Propose.idx ≤ s.step.idx) then
    Res.ok s
  else
    let update := fun (s : SMState) =>
      (newStep { s with round := round, step := RoundStepType.Propose }).andThen (fun s =>
        if isProposalComplete s then
          (Res.out1 s (Output.call CallTag.enterPrevote height round)).andThen
            (fun s => enterPrevote s height round)
        else Res.ok s)
    (Res.out1 s (Output.scheduleTimeout ⟨proposeDuration round, height, round, RoundStepType.Propose⟩)).andThen
      (fun s =>
        match s.signer with
        | none => update s
        | some addr =>
          if ¬(s.validators.proposer = addr) then update s
          else (decideProposal s height round).andThen update)

/-- Source `enterNewRound(height, round)` (lines 396-439). -/
def enterNewRound (s : SMState) (height : Nat) (round : Int) : Res :=
  if ¬(s.height = height) ∨ round < s.round ∨
      (s.round = round ∧ ¬(s.step = RoundStepType.NewHeight)) then
    Res.ok s
  else
    let validators :=
      if s.round < round then s.validators.incrementProposerPriority (round - s.round).toNat
      else s.validators
    let s := { s with round := round, step := RoundStepType.NewRound, validators := validators }
    let s :=
      if round = 0 then s
      else { s with proposal := none, proposalBlock := none, proposalBlockHash := none }
    let s := { s with votes := s.votes.setRound (round + 1), triggeredTimeoutPrecommit := false }
    if WaitForTxs ∧ round = 0 then
      if CreateEmptyBlocksInterval > 0 then
        Res.out1 s (Output.scheduleTimeout ⟨CreateEmptyBlocksInterval, height, round, RoundStepType.NewRound⟩)
      else Res.ok s
    else
      (Res.out1 s (Output.call CallTag.enterPropose height round)).andThen
        (fun s => enterPropose s height round)

/-- Source `enterPrevoteWait(height, round)` (lines 574-597). -/
def enterPrevoteWait (s : SMState) (height : Nat) (round : Int) : Res :=
  if ¬(s.height = height) ∨ round < s.round ∨
      (s.round = round ∧ RoundStepType.PrevoteWait.idx ≤ s.step.idx) then
    Res.ok s
  else if ¬(((s.votes.prevotes round).map (·.hasTwoThirdsAny)).getD false) then
    Res.fail s (Err.other "enterPrevoteWait missing two-thirds votes")
  else
    let update := fun (s : SMState) =>
      newStep { s with round := round, step := RoundStepType.PrevoteWait }
    (Res.out1 s (Output.scheduleTimeout ⟨prevoteDuration round, height, round, RoundStepType.PrevoteWait⟩)).andThen update

/-- Source `enterPrecommit(height, round)` (lines 599-662). -/
def enterPrecommit (s : SMState) (height : Nat) (round : Int) : Res :=
  if ¬(s.height = height) ∨ round < s.round ∨
      (s.round = round ∧ RoundStepType.Precommit.idx ≤ s.step.idx) then
    Res.ok s
  else
    let update := fun (s : SMState) =>
      newStep { s with round := round, step := RoundStepType.Precommit }
    match (s.votes.prevotes round).bind (·.maj23) with
    | none => (signVote s VoteType.Precommit EMPTY_HASH).andThen update
    | some maj23Hash =>
      if (match s.votes.POLInfo with
          | some pol => decide (pol.1 < round)
          | none => false) then
        Res.fail s (Err.other "invalid pol round")
      else if isEmptyHash maj23Hash then
        let r1 : Res :=
          match s.lockedBlock with
          | none => Res.ok s
          | some _ => Res.out1 { s with lockedRound := -1, lockedBlock := none } Output.unlock
        r1.andThen (fun s => (signVote s VoteType.Precommit EMPTY_HASH).andThen update)
      else if s.lockedBlock.map Block_hash = some maj23Hash then
        let s := { s with lockedRound := round }
        (signVote s VoteType.Precommit maj23Hash).andThen update
      else if s.proposalBlock.map Block_hash = some maj23Hash then
        -- the source's block-validation hook is an empty comment here
        let s := { s with lockedRound := round, lockedBlock := s.proposalBlock }
        (signVote s VoteType.Precommit maj23Hash).andThen update
      else
        (Res.out1 { s with lockedRound := -1, lockedBlock := none } Output.unlock).andThen (fun s =>
          let s :=
            if ¬(s.proposalBlock.map Block_hash = some maj23Hash) then
              { s with proposalBlock := none, proposalBlockHash := some maj23Hash }
            else s
          (signVote s VoteType.Precommit EMPTY_HASH).andThen update)

/-- Source `enterPrecommitWait(height, round)` (lines 664-686): note that its
`update` only sets `triggeredTimeoutPrecommit`, never `round` or `step`. -/
def enterPrecommitWait (s : SMState) (height : Nat) (round : Int) : Res :=
  if ¬(s.height = height) ∨ round < s.round ∨
      (s.round = round ∧ s.triggeredTimeoutPrecommit) then
    Res.ok s
  else if ¬(((s.votes.precommits round).map (·.hasTwoThirdsAny)).getD false) then
    Res.fail s (Err.other "enterPrecommitWait missing two-thirds votes")
  else
    let update := fun (s : SMState) =>
      newStep { s with triggeredTimeoutPrecommit := true }
    (Res.out1 s (Output.scheduleTimeout ⟨precommitDutaion round, height, round, RoundStepType.PrecommitWait⟩)).andThen update

/-- Source `tryFinalizeCommit(height)` (lines 723-749): the final
`processBlock` submission is asynchronous and is summarized by an output. -/
def tryFinalizeCommit (s : SMState) (height : Nat) : Res :=
  if ¬(s.height = height ∧ s.step = RoundStepType.Commit) then
    Res.fail s (Err.other "tryFinalizeCommit invalid args")
  else
    match (s.votes.precommits s.commitRound).bind (·.maj23) with
    | none => Res.ok s
    | some maj23Hash =>
      if isEmptyHash maj23Hash then Res.ok s
      else
        match s.proposalBlock with
        | none => Res.ok s
        | some pb =>
          if ¬(Block_hash pb = maj23Hash) then Res.ok s
          else Res.out1 s (Output.processBlock pb)

/-- Source `enterCommit(height, commitRound)` (lines 688-721): the guard
checks only the height and `step < Commit`, not the round. -/
def enterCommit (s : SMState) (height : Nat) (commitRound : Int) : Res :=
  if ¬(s.height = height) ∨ RoundStepType.Commit.idx ≤ s.step.idx then
    Res.ok s
  else
    let update := fun (s : SMState) =>
      (newStep { s with step := RoundStepType.Commit, commitRound := commitRound,
                        commitTime := some dateNow }).andThen (fun s =>
        (Res.out1 s (Output.call CallTag.tryFinalizeCommit height commitRound)).andThen
          (fun s => tryFinalizeCommit s height))
    match (s.votes.precommits commitRound).bind (·.maj23) with
    | none => Res.fail s (Err.other "enterCommit expected precommits")
    | some maj23Hash =>
      let s :=
        match s.lockedBlock with
        | some lb =>
          if Block_hash lb = maj23Hash then
            { s with proposalBlockHash := some (Block_hash lb), proposalBlock := some lb }
          else s
        | none => s
      let s :=
        if ¬(s.proposalBlock.map Block_hash = some maj23Hash) then
          { s with proposalBlock := none, proposalBlockHash := some maj23Hash }
        else s
      update s

/-- Source `setProposal(proposal)` (lines 224-244); `validateSignature`
passing means the recovered signer equals the current proposer. -/
def setProposal (s : SMState) (p : Proposal) : Res :=
  if s.proposal.isSome then Res.ok s
  else if ¬(s.height = p.height ∧ s.round = p.round) then Res.ok s
  else if p.POLRound < -1 ∨ (0 ≤ p.POLRound ∧ p.round ≤ p.POLRound) then
    Res.fail s (Err.other "invalid proposal POL round")
  else if ¬(p.signer = s.validators.proposer) then
    Res.fail s (Err.other "invalid proposal signature")
  else
    let s := { s with proposal := some p, proposalBlockHash := some p.hash }
    if s.proposalBlock = none then Res.out1 s (Output.getProposalBlock p.hash)
    else Res.ok s

/-- Source `addProposalBlock(block)` (lines 258-289). -/
def addProposalBlock (s : SMState) (block : Block) : Res :=
  if s.proposalBlock.isSome then Res.ok s
  else
    match s.proposalBlockHash with
    | none => Res.fail s (Err.other "add proposal block when hash is undefined")
    | some pbh =>
      if ¬(pbh = Block_hash block) then Res.fail s (Err.other "invalid proposal block")
      else
        let s := { s with proposalBlock := some block }
        let maj23Hash := (s.votes.prevotes s.round).bind (·.maj23)
        let s :=
          match maj23Hash with
          | some m =>
            if ¬(isEmptyHash m) ∧ s.validRound < s.round then
              if pbh = m then { s with validRound := s.round, validBlock := some block }
              else s
            else s
          | none => s
        if s.step.idx ≤ RoundStepType.Propose.idx ∧ isProposalComplete s then
          (Res.out1 s (Output.call CallTag.enterPrevote s.height s.round)).andThen (fun s =>
            (enterPrevote s s.height s.round).andThen (fun s =>
              if maj23Hash.isSome then
                (Res.out1 s (Output.call CallTag.enterPrecommit s.height s.round)).andThen
                  (fun s => enterPrecommit s s.height s.round)
              else Res.ok s))
        else if s.step = RoundStepType.Commit then
          (Res.out1 s (Output.call CallTag.tryFinalizeCommit s.height s.round)).andThen
            (fun s => tryFinalizeCommit s s.height)
        else Res.ok s

/-- The `case VoteType.Prevote` body of `addVote` (lines 306-350). -/
def prevoteBody (s : SMState) (v : Vote) : Res :=
  let prevotes := s.votes.prevotes v.round
  let maj23Hash := prevotes.bind (·.maj23)
  let r1 : Res :=
    match maj23Hash with
    | none => Res.ok s
    | some m =>
      let r0 : Res :=
        match s.lockedBlock with
        | some lb =>
          if s.lockedRound < v.round ∧ v.round ≤ s.round ∧ ¬(Block_hash lb = m) then
            Res.out1 { s with lockedRound := -1, lockedBlock := none } Output.unlock
          else Res.ok s
        | none => Res.ok s
      r0.andThen (fun s =>
        if ¬(isEmptyHash m) ∧ s.validRound < v.round ∧ v.round = s.round then
          let s :=
            if s.proposalBlockHash = some m then
              { s with validRound := v.round, validBlock := s.proposalBlock }
            else { s with proposalBlock := none }
          let s :=
            if ¬(s.proposalBlockHash = some m) then { s with proposalBlockHash := some m }
            else s
          Res.out1 s (Output.newValidBlock s.height s.round s.proposalBlockHash
            (s.step = RoundStepType.Commit))
        else Res.ok s)
  r1.andThen (fun s =>
    if s.round < v.round ∧ (prevotes.map (·.hasTwoThirdsAny)).getD false then
      (Res.out1 s (Output.call CallTag.enterNewRound s.height v.round)).andThen
        (fun s => enterNewRound s s.height v.round)
    else if s.round = v.round ∧ RoundStepType.Prevote.idx ≤ s.step.idx then
      if maj23Hash.isSome ∧ (isProposalComplete s ∨ (maj23Hash.map isEmptyHash).getD false) then
        (Res.out1 s (Output.call CallTag.enterPrecommit s.height v.round)).andThen
          (fun s => enterPrecommit s s.height v.round)
      else if (prevotes.map (·.hasTwoThirdsAny)).getD false then
        (Res.out1 s (Output.call CallTag.enterPrevoteWait s.height v.round)).andThen
          (fun s => enterPrevoteWait s s.height v.round)
      else Res.ok s
    else
      match s.proposal with
      | some p =>
        if 0 ≤ p.POLRound ∧ p.POLRound = v.round then
          if isProposalComplete s then
            (Res.out1 s (Output.call CallTag.enterPrevote s.height s.round)).andThen
              (fun s => enterPrevote s s.height s.round)
          else Res.ok s
        else Res.ok s
      | none => Res.ok s)

/-- The `case VoteType.Precommit` body of `addVote` (lines 351-369). -/
def precommitBody (s : SMState) (v : Vote) : Res :=
  let precommits := s.votes.precommits v.round
  let maj23Hash := precommits.bind (·.maj23)
  match maj23Hash with
  | some m =>
    (Res.out1 s (Output.call CallTag.enterNewRound s.height v.round)).andThen (fun s =>
      (enterNewRound s s.height v.round).andThen (fun s =>
        (Res.out1 s (Output.call CallTag.enterPrecommit s.height v.round)).andThen (fun s =>
          (enterPrecommit s s.height v.round).andThen (fun s =>
            if ¬(isEmptyHash m) then
              (Res.out1 s (Output.call CallTag.enterCommit s.height v.round)).andThen (fun s =>
                (enterCommit s s.height v.round).andThen (fun s =>
                  if SkipTimeoutCommit then
                    (Res.out1 s (Output.call CallTag.enterNewRound s.height 0)).andThen
                      (fun s => enterNewRound s s.height 0)
                  else Res.ok s))
            else
              (Res.out1 s (Output.call CallTag.enterPrecommitWait s.height v.round)).andThen
                (fun s => enterPrecommitWait s s.height v.round)))))
  | none =>
    if s.round ≤ v.round ∧ (precommits.map (·.hasTwoThirdsAny)).getD false then
      (Res.out1 s (Output.call CallTag.enterNewRound s.height v.round)).andThen (fun s =>
        (enterNewRound s s.height v.round).andThen (fun s =>
          (Res.out1 s (Output.call CallTag.enterPrecommitWait s.height v.round)).andThen
            (fun s => enterPrecommitWait s s.height v.round)))
    else Res.ok s

/-- The body of `addVote` after its height guard (lines 299-373): add to the
height vote set, emit `hasVote`, then run the break-less `switch` — for a
prevote both case bodies run, and control that completes every case body
reaches the `default` branch, which throws. -/
def addVoteCore (s : SMState) (v : Vote) (peerId : String) : Res :=
  match s.votes.addVote v peerId with
  | Except.error e => Res.fail s e
  | Except.ok hvs =>
    let s := { s with votes := hvs }
    (Res.out1 s (Output.hasVote v.height v.round v.type v.index)).andThen (fun s =>
      ((if v.type = VoteType.Prevote then prevoteBody s v else Res.ok s).andThen (fun s =>
        if v.type = VoteType.Prevote ∨ v.type = VoteType.Precommit then precommitBody s v
        else Res.ok s)).andThen (fun s =>
          Res.fail s (Err.other "unexpected vote type")))

/-- Source `addVote(vote, peerId)` (lines 291-374): the height guard compares
the vote's height with itself, exactly as written in the source
(`!vote.height.eq(vote.height)`). -/
def addVote (s : SMState) (v : Vote) (peerId : String) : Res :=
  if ¬(v.height = v.height) then Res.ok s
  else addVoteCore s v peerId

/-- Source `tryAddVote(vote, peerId)` (lines 376-394): conflicting votes from
ourselves are suppressed, other conflicts are reported to the evidence pool,
and every other error is logged; nothing is rethrown. -/
def tryAddVote (s : SMState) (v : Vote) (peerId : String) : Res :=
  let r := addVote s v peerId
  match r.err with
  | none => ⟨r.s, r.out, none⟩
  | some (Err.conflicting voteA voteB) =>
    if s.signer = some v.validator then ⟨r.s, r.out, none⟩
    else ⟨r.s, r.out ++ [Output.reportConflicting voteA voteB], none⟩
  | some (Err.other _) => ⟨r.s, r.out, none⟩

/-- Source `handleTimeout(ti)` (lines 198-220): after the staleness check the
`switch` has no `break`, so the case matching `ti.step` and all later case
bodies run, and completing them reaches `default`, which throws.  Each case
body emits a `timeoutCase` marker. -/
def handleTimeout (s : SMState) (ti : TimeoutInfo) : Res :=
  if ¬(ti.height = s.height) ∨ ti.round < s.round ∨
      (ti.round = s.round ∧ ti.step.idx < s.step.idx) then
    Res.ok s
  else
    (if ti.step = RoundStepType.NewHeight then
      (Res.out1 s (Output.timeoutCase RoundStepType.NewHeight)).andThen (fun s =>
        (Res.out1 s (Output.call CallTag.enterNewRound ti.height 0)).andThen
          (fun s => enterNewRound s ti.height 0))
    else Res.ok s).andThen (fun s =>
    (if ti.step = RoundStepType.NewHeight ∨ ti.step = RoundStepType.NewRound then
      (Res.out1 s (Output.timeoutCase RoundStepType.NewRound)).andThen (fun s =>
        (Res.out1 s (Output.call CallTag.enterPropose ti.height 0)).andThen
          (fun s => enterPropose s ti.height 0))
    else Res.ok s).andThen (fun s =>
    (if ti.step = RoundStepType.NewHeight ∨ ti.step = RoundStepType.NewRound ∨
        ti.step = RoundStepType.Propose then
      (Res.out1 s (Output.timeoutCase RoundStepType.Propose)).andThen (fun s =>
        (Res.out1 s (Output.call CallTag.enterPrevote ti.height ti.round)).andThen
          (fun s => enterPrevote s ti.height ti.round))
    else Res.ok s).andThen (fun s =>
    (if ti.step = RoundStepType.NewHeight ∨ ti.step = RoundStepType.NewRound ∨
        ti.step = RoundStepType.Propose ∨ ti.step = RoundStepType.PrevoteWait then
      (Res.out1 s (Output.timeoutCase RoundStepType.PrevoteWait)).andThen (fun s =>
        (Res.out1 s (Output.call CallTag.enterPrecommit ti.height ti.round)).andThen
          (fun s => enterPrecommit s ti.height ti.round))
    else Res.ok s).andThen (fun s =>
    (if ti.step = RoundStepType.NewHeight ∨ ti.step = RoundStepType.NewRound ∨
        ti.step = RoundStepType.Propose ∨ ti.step = RoundStepType.PrevoteWait ∨
        ti.step = RoundStepType.PrecommitWait then
      (Res.out1 s (Output.timeoutCase RoundStepType.PrecommitWait)).andThen (fun s =>
        (Res.out1 s (Output.call CallTag.enterPrecommit ti.height ti.round)).andThen (fun s =>
          (enterPrecommit s ti.height ti.round).andThen (fun s =>
            (Res.out1 s (Output.call CallTag.enterNewRound ti.height (ti.round + 1))).andThen
              (fun s => enterNewRound s ti.height (ti.round + 1)))))
    else Res.ok s).andThen (fun s =>
      Res.fail s (Err.other "invalid timeout step"))))))

/-- Source `newBlockHeader(header, validators)` (lines 771-802): resets the
round state for the next height.  `proposalBlockHash` is not among the
assigned fields, exactly as in the source. -/
def newBlockHeaderF (s : SMState) (headerNumber : Nat) (headerHash : Bytes)
    (validators : ValidatorSet) : Res :=
  if s.commitRound > -1 ∧ s.height > 0 ∧ ¬(s.height = headerNumber) then
    Res.fail s (Err.other "newBlockHeader invalid args")
  else
    let timestamp := dateNow
    let startTime := commitTimeoutF (s.commitTime.getD timestamp)
    let s :=
      { s with
        parentHash := headerHash,
        height := headerNumber + 1,
        round := 0,
        step := RoundStepType.NewHeight,
        startTime := startTime,
        validators := validators,
        proposal := none,
        proposalBlock := none,
        lockedRound := -1,
        lockedBlock := none,
        validRound := -1,
        validBlock := none,
        votes := HeightVoteSet.new (headerNumber + 1) validators.valPowers,
        commitRound := -1,
        triggeredTimeoutPrecommit := false }
    (newStep s).andThen (fun s =>
      Res.out1 s (Output.scheduleTimeout
        ⟨(startTime : Int) - (dateNow : Int), s.height, 0, RoundStepType.NewHeight⟩))

/-- Inputs the state machine consumes: the three message kinds handled by
`handleMsg`, ticker timeouts, and the `newBlockHeader` call from the block
pipeline. -/
inductive Event
  | propMsg (p : Proposal)
  | blockMsg (b : Block)
  | voteMsg (v : Vote) (peerId : String)
  | timeout (ti : TimeoutInfo)
  | newHeader (headerNumber : Nat) (headerHash : Bytes) (validators : ValidatorSet)
deriving DecidableEq, Repr

/-- Whether an event is delivered through the message queue (`msgLoop`),
rather than being the block pipeline's direct `newBlockHeader` call. -/
def Event.isQueueEvent : Event → Bool
  | .newHeader _ _ _ => false
  | _ => true

/-- Dispatch one event, as `msgLoop`/`handleMsg` do; errors are caught by the
loop, so the post-state always persists. -/
def handleEvent (s : SMState) (e : Event) : Res :=
  match e with
  | .propMsg p => setProposal s p
  | .blockMsg b => addProposalBlock s b
  | .voteMsg v peerId => tryAddVote s v peerId
  | .timeout ti => handleTimeout s ti
  | .newHeader hn hh vals => newBlockHeaderF s hn hh vals

/-- The state surviving one event (the `msgLoop` catches every error). -/
def applyEvent (s : SMState) (e : Event) : SMState := (handleEvent s e).s

/-- The state after a sequence of events. -/
def applyEvents (s : SMState) (es : List Event) : SMState := es.foldl applyEvent s

/-- The field values set by the `StateMachine` constructor; the source leaves
`votes` definitely-unassigned until the first `newBlockHeader`, modelled here
by an empty placeholder that the first `newBlockHeader` replaces. -/
def constructorState (chainId : Nat) (signer : Option Nat) (pendingBlock : Option Block) : SMState :=
  { chainId := chainId, signer := signer, pendingBlock := pendingBlock,
    parentHash := [], triggeredTimeoutPrecommit := false,
    height := 0, round := 0, step := RoundStepType.NewHeight,
    startTime := 0, commitTime := none,
    validators := ⟨[], 0⟩, proposal := none, proposalBlockHash := none,
    proposalBlock := none, lockedRound := -1, lockedBlock := none,
    validRound := -1, validBlock := none,
    votes := HeightVoteSet.new 0 [], commitRound := -1 }

/-- States the machine can reach: a first `newBlockHeader` call on a freshly
constructed machine followed by any sequence of delivered events. -/
inductive Reachable : SMState → Prop
  | init (chainId : Nat) (signer : Option Nat) (pendingBlock : Option Block)
      (headerNumber : Nat) (headerHash : Bytes) (validators : ValidatorSet) :
      Reachable (applyEvent (constructorState chainId signer pendingBlock)
        (Event.newHeader headerNumber headerHash validators))
  | step (s : SMState) (e : Event) : Reachable s → Reachable (applyEvent s e)

/-! ## Concrete states and traces used by counterexamples and witnesses -/

/-- A 32-byte hash distinct from the empty hash. -/
def h1 : Bytes := 1 :: List.replicate 31 0

/-- A second 32-byte hash, distinct from `h1` and from the empty hash. -/
def h2 : Bytes := 2 :: List.replicate 31 0

/-- The block with hash `h1`. -/
def b1 : Block := ⟨h1⟩

/-- The block with hash `h2`. -/
def b2 : Block := ⟨h2⟩

/-- Four validators of voting power one each; the seeded proposer is
validator 0 (also the node's own signer in the reachability trace). -/
def vals4 : ValidatorSet := ⟨[⟨0, 1, 0⟩, ⟨1, 1, 0⟩, ⟨2, 1, 0⟩, ⟨3, 1, 0⟩], 0⟩

/-- A freshly constructed machine (signing key of validator 0) after its
first `newBlockHeader(0)`: height 1, round 0, step NewHeight. -/
def exInit : SMState :=
  applyEvent (constructorState 1 (some 0) none) (Event.newHeader 0 [] vals4)

/-- Same fresh machine without a signer (a non-validator observer node). -/
def exInitNS : SMState :=
  applyEvent (constructorState 1 none none) (Event.newHeader 0 [] vals4)

/-- Round-0 proposal for block `b1`, signed by the proposer. -/
def p1 : Proposal := ⟨VoteType.Proposal, 1, 0, -1, h1, 0⟩

/-- Round-1 proposal for block `b2`, signed by the round-1 proposer. -/
def p2 : Proposal := ⟨VoteType.Proposal, 1, 1, -1, h2, 0⟩

/-- Prevote of validator `i` at round `r` for hash `h` (height 1). -/
def pv (i : Nat) (r : Int) (h : Bytes) : Vote := ⟨VoteType.Prevote, 1, r, h, i, i⟩

/-- Precommit of validator `i` at round `r` for hash `h` (height 1). -/
def pcv (i : Nat) (r : Int) (h : Bytes) : Vote := ⟨VoteType.Precommit, 1, r, h, i, i⟩

/-- Delivered events leading to a locked state: the round-0 proposal and
block `b1` arrive, prevotes from validators 1-3 lock the machine on `b1` at
round 0; then a round-1 prevote polka for `b2` forms (each prevote arriving
while its round is still ahead of the machine, so the unlock guard
`vote.round ≤ this.round` fails), moving the machine to round 1 still locked
on `b1`; finally the round-1 proposal for `b2` arrives. -/
def exTrace : List Event :=
  [Event.propMsg p1, Event.blockMsg b1,
   Event.voteMsg (pv 1 0 h1) "a", Event.voteMsg (pv 2 0 h1) "a", Event.voteMsg (pv 3 0 h1) "a",
   Event.voteMsg (pv 1 1 h2) "a", Event.voteMsg (pv 2 1 h2) "a", Event.voteMsg (pv 3 1 h2) "a",
   Event.propMsg p2]

/-- The reachable state at round 1, step Propose, locked on `b1` from round
0, with a round-1 prevote two-thirds majority for `hash(b2)` recorded. -/
def exLocked : SMState := applyEvents exInit exTrace

/-- Shorthand for vote sets of height 1 over the four unit-power
validators. -/
def mkVS (r : Int) (t : VoteType) (vl : List Vote) (m : Option Bytes) : VoteSet :=
  ⟨1, r, t, [1, 1, 1, 1], vl, m⟩

/-- Height vote set in which round 0 prevotes reached a non-nil majority for
`h1` while round 1 prevotes and precommits reached the nil majority. -/
def hvs9 : HeightVoteSet :=
  ⟨1, [1, 1, 1, 1], 1,
   [(0, ⟨mkVS 0 VoteType.Prevote [pv 0 0 h1, pv 1 0 h1, pv 2 0 h1] (some h1),
         mkVS 0 VoteType.Precommit [] none⟩),
    (1, ⟨mkVS 1 VoteType.Prevote [pv 0 1 EMPTY_HASH, pv 1 1 EMPTY_HASH, pv 2 1 EMPTY_HASH] (some EMPTY_HASH),
         mkVS 1 VoteType.Precommit [pcv 0 1 EMPTY_HASH, pcv 1 1 EMPTY_HASH, pcv 2 1 EMPTY_HASH] (some EMPTY_HASH)⟩)],
   []⟩

/-- Machine at height 1, round 1, step Prevote over `hvs9`: the next
successfully added precommit makes the vote dispatch call `enterPrecommit`,
whose `POLInfo` check throws before the switch reaches `default`. -/
def cs9 : SMState :=
  { chainId := 1, signer := none, pendingBlock := none, parentHash := [],
    triggeredTimeoutPrecommit := false, height := 1, round := 1,
    step := RoundStepType.Prevote, startTime := 0, commitTime := none,
    validators := vals4, proposal := none, proposalBlockHash := none, proposalBlock := none,
    lockedRound := -1, lockedBlock := none, validRound := -1, validBlock := none,
    votes := hvs9, commitRound := -1 }

/-- Height vote set whose round-0 prevotes and precommits both reached a
non-nil two-thirds majority for `h1`. -/
def hvs3 : HeightVoteSet :=
  ⟨1, [1, 1, 1, 1], 1,
   [(0, ⟨mkVS 0 VoteType.Prevote [pv 0 0 h1, pv 1 0 h1, pv 2 0 h1] (some h1),
         mkVS 0 VoteType.Precommit [pcv 0 0 h1, pcv 1 0 h1, pcv 2 0 h1] (some h1)⟩),
    (1, ⟨mkVS 1 VoteType.Prevote [] none, mkVS 1 VoteType.Precommit [] none⟩)],
   []⟩

/-- Machine at height 1, round 1, step Prevote with a completed round-0
precommit majority: `enterCommit(1, 0)` transitions although `0 < round`. -/
def cs3 : SMState := { cs9 with votes := hvs3 }

/-- Height vote set where the round-0 precommits already have a non-nil
majority for `h1` but the prevotes have none. -/
def hvs5 : HeightVoteSet :=
  ⟨1, [1, 1, 1, 1], 0,
   [(0, ⟨mkVS 0 VoteType.Prevote [] none,
         mkVS 0 VoteType.Precommit [pcv 0 0 h1, pcv 1 0 h1, pcv 2 0 h1] (some h1)⟩)],
   []⟩

/-- Machine at height 1, round 0, step Propose awaiting block `b1`, whose
round-0 precommits already have a two-thirds majority. -/
def cs5 : SMState :=
  { cs9 with round := 0, step := RoundStepType.Propose, votes := hvs5,
             proposal := some p1, proposalBlockHash := some h1 }

/-- Height vote set where round-0 prevotes reached the majority `h1` and the
precommits hold two of the three votes needed. -/
def hvs2 : HeightVoteSet :=
  ⟨1, [1, 1, 1, 1], 0,
   [(0, ⟨mkVS 0 VoteType.Prevote [pv 0 0 h1, pv 1 0 h1, pv 2 0 h1] (some h1),
         mkVS 0 VoteType.Precommit [pcv 0 0 h1, pcv 1 0 h1] none⟩)],
   []⟩

/-- Machine at height 1, round 0, step Precommit holding block `b1`: the next
precommit vote completes the majority and drives `enterCommit`. -/
def cs2 : SMState :=
  { cs9 with round := 0, step := RoundStepType.Precommit, votes := hvs2,
             proposal := some p1, proposalBlockHash := some h1, proposalBlock := some b1 }

end Rei

namespace Reimint

open Rei (Bytes Proposal VoteSet)

/-! ## Block hashing (source `part_009`, class `Reimint`) -/

/-- The 32 reserved vanity bytes at the start of `header.extraData`. -/
def CLIQUE_EXTRA_VANITY : Nat := 32

/-- Source `formatHeaderData`: truncate the extra data to the 32 vanity
bytes, or left-pad it with zeros up to 32 bytes. -/
def formatExtraData (extraData : Bytes) : Bytes :=
  if CLIQUE_EXTRA_VANITY < extraData.length then extraData.take CLIQUE_EXTRA_VANITY
  else List.replicate (CLIQUE_EXTRA_VANITY - extraData.length) 0 ++ extraData

/-- Modelled from the spec: a piece of duplicate-vote evidence, observed only
through its keccak hash `ev.hash()`. -/
structure Evidence where
  hashv : Bytes
deriving DecidableEq, Repr

/-- Source `ev.hash()`. -/
def Evidence.hash (ev : Evidence) : Bytes := ev.hashv

/-- The Ethereum block-header fields other than `extraData`, in `raw()`
order (`extraData` is raw index 12, between `timestamp` and `mixHash`). -/
structure HeaderData where
  parentHash : Bytes
  uncleHash : Bytes
  coinbase : Bytes
  stateRoot : Bytes
  transactionsTrie : Bytes
  receiptTrie : Bytes
  bloom : Bytes
  difficulty : Bytes
  number : Bytes
  gasLimit : Bytes
  gasUsed : Bytes
  timestamp : Bytes
  extraData : Bytes
  mixHash : Bytes
  nonce : Bytes
deriving DecidableEq, Repr

/-- Source `header.raw()`: the fifteen header fields in RLP order. -/
def headerRaw (h : HeaderData) : List Bytes :=
  [h.parentHash, h.uncleHash, h.coinbase, h.stateRoot, h.transactionsTrie,
   h.receiptTrie, h.bloom, h.difficulty, h.number, h.gasLimit, h.gasUsed,
   h.timestamp, h.extraData, h.mixHash, h.nonce]

/-- Source `Reimint.calcBlockHeaderRawHash(header, evidence)`: hash the raw
header with `raw[12]` replaced by the 32 vanity bytes followed by the
evidence hashes.  The keccak-over-RLP step is taken as a parameter
`rlphash`, since only its congruence matters to the verified claims. -/
def calcBlockHeaderRawHash (rlphash : List Bytes → Bytes) (header : HeaderData)
    (evidence : List Evidence) : Bytes :=
  let raw := headerRaw header
  rlphash (raw.set 12 ((raw.getD 12 []).take CLIQUE_EXTRA_VANITY ++ (evidence.map Evidence.hash).flatten))

/-- The data sealed into `header.extraData` after the vanity bytes (spec
section 6.2). -/
structure ExtraDataV where
  round : Int
  commitRound : Int
  POLRound : Int
  evidence : List Evidence
  proposal : Proposal
  voteSet : Option VoteSet
deriving DecidableEq, Repr

/-- Length-prefixed chunk encoding used by the serialization stand-in. -/
def encChunk (b : Bytes) : Bytes := b.length :: b

/-- Integer encoding used by the serialization stand-in. -/
def encInt (i : Int) : Bytes := if i < 0 then [0, (-i).toNat] else [1, i.toNat]

/-- Modelled from the spec (section 6.2): serialization of a `Proposal`. -/
def encProposal (p : Proposal) : Bytes :=
  encInt p.height ++ encInt p.round ++ encInt p.POLRound ++ encChunk p.hash ++ encInt p.signer

/-- Modelled from the spec (section 6.2): the commit bitmap and signatures of
a precommit vote set, encoded per stored vote. -/
def encVoteSet : Option VoteSet → Bytes
  | none => [0]
  | some vs => 1 :: (vs.votes.map (fun v => encInt v.index ++ encChunk v.hash)).flatten

/-- Modelled from the spec (section 6.2):
`RLP([round, commitRound, POLRound, evidence, proposal, voteSet])`, with a
simple length-prefixed encoding standing in for RLP. -/
def serializeExtraData (ed : ExtraDataV) : Bytes :=
  encInt ed.round ++ encInt ed.commitRound ++ encInt ed.POLRound ++
    encChunk ((ed.evidence.map Evidence.hash).flatten) ++ encProposal ed.proposal ++
    encVoteSet ed.voteSet

/-- A block: header plus transactions (uncles are always absent). -/
structure BlockV where
  header : HeaderData
  transactions : List Bytes
deriving DecidableEq, Repr

/-- Source `Reimint.generateFinalizedBlock(data, transactions, evidence,
proposal, commitRound, votes, options)`: seal the extra data behind the
formatted vanity bytes and build the block. -/
def generateFinalizedBlock (data : HeaderData) (transactions : List Bytes)
    (evidence : List Evidence) (proposal : Proposal) (commitRound : Int)
    (votes : VoteSet) : BlockV :=
  let extraData : ExtraDataV :=
    ⟨proposal.round, commitRound, proposal.POLRound, evidence, proposal, some votes⟩
  let vanity := formatExtraData data.extraData
  let header := { data with extraData := vanity ++ serializeExtraData extraData }
  ⟨header, transactions⟩

end Reimint

namespace Rei

/-! ## Derived definitions used by the theorems -/

/-- Does an output mark an invocation of `enterPrecommit`? -/
def isPrecommitCall (o : Output) : Bool :=
  match o with
  | Output.call CallTag.enterPrecommit _ _ => true
  | _ => false

/-- Did an `Except` computation succeed? -/
def exceptOk {α : Type} : Except Err α → Bool
  | Except.ok _ => true
  | Except.error _ => false

/-- The `handleTimeout` switch-case labels in source order. -/
def timeoutCaseList : List RoundStepType :=
  [RoundStepType.NewHeight, RoundStepType.NewRound, RoundStepType.Propose,
   RoundStepType.PrevoteWait, RoundStepType.PrecommitWait]

/-- Extract the case label from a `timeoutCase` marker. -/
def tcOf (o : Output) : Option RoundStepType :=
  match o with | Output.timeoutCase st => some st | _ => none

/-- The switch-case bodies executed during a run, in order. -/
def caseMarkers (out : List Output) : List RoundStepType :=
  out.filterMap tcOf

/-- The switch-case labels from a given entry label to the end of the
`switch`: the case bodies a fall-through execution entering there visits. -/
def caseTail (st : RoundStepType) : List RoundStepType :=
  timeoutCaseList.dropWhile (fun x => decide (¬(x = st)))

/-- The error object built by the `default` branch of `handleTimeout`. -/
def invalidTimeoutErr : Err := Err.other "invalid timeout step"

/-- The fall-through behaviour of a suffix of the `handleTimeout` switch:
it always ends in a throw, the executed case bodies are an in-order prefix
of `tail` (a throw inside a case body cuts the run short), reaching the
`default` throw means every case body of `tail` ran, and a non-empty `tail`
always starts its first case body. -/
def C4Chain (g : SMState → Res) (tail : List RoundStepType) : Prop :=
  ∀ s, ¬((g s).err = none) ∧
    (∃ k, caseMarkers (g s).out = tail.take k) ∧
    ((g s).err = some invalidTimeoutErr → caseMarkers (g s).out = tail) ∧
    (¬(tail = []) → ¬(caseMarkers (g s).out = []))

/-- A state at step Commit carries a non-nil two-thirds precommit majority
for its commit round. -/
def CommitOK (x : SMState) : Prop :=
  x.step = RoundStepType.Commit →
    ∃ m, ((x.votes.precommits x.commitRound).bind (·.maj23)) = some m ∧
      ¬(isEmptyHash m = true)

/-- Lexicographic comparison of (round, step) pairs of two states. -/
def rsLe (a b : SMState) : Prop :=
  a.round < b.round ∨ (a.round = b.round ∧ a.step.idx ≤ b.step.idx)

/-- The lock never runs ahead of the current round. -/
def LockInv (s : SMState) : Prop := 0 ≤ s.round ∧ s.lockedRound ≤ s.round

/-- One height-vote-set extends another: every allocated round of the first
is still present, unchanged, in the second. -/
def VotesExt (a b : HeightVoteSet) : Prop :=
  ∀ (r : Int) (rv : RoundVoteSet), lookupRvs a.rvs r = some rv → lookupRvs b.rvs r = some rv

/-! ## Helper lemmas about the `Res` plumbing -/

theorem signVote_s (s : SMState) (t : VoteType) (h : Bytes) : (signVote s t h).s = s := by
  unfold signVote
  split
  · rfl
  · split <;> rfl

theorem signVote_err (s : SMState) (t : VoteType) (h : Bytes) : (signVote s t h).err = none := by
  unfold signVote
  split
  · rfl
  · split <;> rfl

theorem newStep_s (s : SMState) : (newStep s).s = s := rfl

theorem newStep_err (s : SMState) : (newStep s).err = none := rfl

theorem andThen_err_some (r : Res) (f : SMState → Res) (e : Err) (h : r.err = some e) :
    r.andThen f = r := by
  unfold Res.andThen
  rw [h]

theorem andThen_err_none (r : Res) (f : SMState → Res) (h : r.err = none) :
    r.andThen f = ⟨(f r.s).s, r.out ++ (f r.s).out, (f r.s).err⟩ := by
  unfold Res.andThen
  rw [h]

theorem ok_andThen (s : SMState) (f : SMState → Res) : (Res.ok s).andThen f = ⟨(f s).s, (f s).out, (f s).err⟩ := by
  unfold Res.andThen Res.ok
  simp

theorem out1_andThen (s : SMState) (o : Output) (f : SMState → Res) :
    (Res.out1 s o).andThen f = ⟨(f s).s, o :: (f s).out, (f s).err⟩ := by
  unfold Res.andThen Res.out1
  simp

/-! ## Claim C8 -/

/-- C8: `StateMachine.addVote` never rejects a vote on height grounds — the
guard at the top of `addVote` compares the vote's height with itself
(`!vote.height.eq(vote.height)`) and therefore always passes, so every vote,
whatever its height relative to the machine's, is forwarded to
`votes.addVote` and the post-add dispatch (`addVoteCore`) runs. -/
theorem C8_height_guard_always_passes :
    ∀ (s : SMState) (v : Vote) (peerId : String),
      addVote s v peerId = addVoteCore s v peerId := by
  intro s v peerId
  unfold addVote
  simp

/-! ## Claim C10 -/

/-- C10: when `newBlockHeader` passes its argument check it resets `height`,
`round`, `step`, `startTime`, `validators`, `proposal`, `proposalBlock`,
`lockedRound`, `lockedBlock`, `validRound`, `validBlock`, `votes`,
`commitRound` and `triggeredTimeoutPrecommit` for the new height, but never
assigns `proposalBlockHash`, which keeps its value from the previous
height. -/
theorem C10_newBlockHeader_frame :
    ∀ (s : SMState) (hn : Nat) (hh : Bytes) (vals : ValidatorSet),
      ¬(s.commitRound > -1 ∧ s.height > 0 ∧ ¬(s.height = hn)) →
      ((newBlockHeaderF s hn hh vals).s.height = hn + 1 ∧
       (newBlockHeaderF s hn hh vals).s.round = 0 ∧
       (newBlockHeaderF s hn hh vals).s.step = RoundStepType.NewHeight ∧
       (newBlockHeaderF s hn hh vals).s.startTime = commitTimeoutF (s.commitTime.getD dateNow) ∧
       (newBlockHeaderF s hn hh vals).s.validators = vals ∧
       (newBlockHeaderF s hn hh vals).s.proposal = none ∧
       (newBlockHeaderF s hn hh vals).s.proposalBlock = none ∧
       (newBlockHeaderF s hn hh vals).s.lockedRound = -1 ∧
       (newBlockHeaderF s hn hh vals).s.lockedBlock = none ∧
       (newBlockHeaderF s hn hh vals).s.validRound = -1 ∧
       (newBlockHeaderF s hn hh vals).s.validBlock = none ∧
       (newBlockHeaderF s hn hh vals).s.votes = HeightVoteSet.new (hn + 1) vals.valPowers ∧
       (newBlockHeaderF s hn hh vals).s.commitRound = -1 ∧
       (newBlockHeaderF s hn hh vals).s.triggeredTimeoutPrecommit = false ∧
       (newBlockHeaderF s hn hh vals).s.parentHash = hh) ∧
      (newBlockHeaderF s hn hh vals).s.proposalBlockHash = s.proposalBlockHash := by
  intro s hn hh vals hg
  unfold newBlockHeaderF
  rw [if_neg hg]
  simp [Res.andThen, Res.out1, newStep]

/-- Witness for C10 at the concrete state `cs9`. -/
theorem C10_witness :
    (¬(cs9.commitRound > -1 ∧ cs9.height > 0 ∧ ¬(cs9.height = 1))) ∧
    (((newBlockHeaderF cs9 1 [] vals4).s.height = 1 + 1 ∧
      (newBlockHeaderF cs9 1 [] vals4).s.round = 0 ∧
      (newBlockHeaderF cs9 1 [] vals4).s.step = RoundStepType.NewHeight ∧
      (newBlockHeaderF cs9 1 [] vals4).s.startTime = commitTimeoutF (cs9.commitTime.getD dateNow) ∧
      (newBlockHeaderF cs9 1 [] vals4).s.validators = vals4 ∧
      (newBlockHeaderF cs9 1 [] vals4).s.proposal = none ∧
      (newBlockHeaderF cs9 1 [] vals4).s.proposalBlock = none ∧
      (newBlockHeaderF cs9 1 [] vals4).s.lockedRound = -1 ∧
      (newBlockHeaderF cs9 1 [] vals4).s.lockedBlock = none ∧
      (newBlockHeaderF cs9 1 [] vals4).s.validRound = -1 ∧
      (newBlockHeaderF cs9 1 [] vals4).s.validBlock = none ∧
      (newBlockHeaderF cs9 1 [] vals4).s.votes = HeightVoteSet.new (1 + 1) vals4.valPowers ∧
      (newBlockHeaderF cs9 1 [] vals4).s.commitRound = -1 ∧
      (newBlockHeaderF cs9 1 [] vals4).s.triggeredTimeoutPrecommit = false ∧
      (newBlockHeaderF cs9 1 [] vals4).s.parentHash = []) ∧
     (newBlockHeaderF cs9 1 [] vals4).s.proposalBlockHash = cs9.proposalBlockHash) :=
  ⟨by decide, C10_newBlockHeader_frame cs9 1 [] vals4 (by decide)⟩

end Rei

namespace Reimint

open Rei (Bytes Proposal VoteSet)

/-! ## Claim C7 -/

theorem formatExtraData_length (e : Bytes) :
    (formatExtraData e).length = CLIQUE_EXTRA_VANITY := by
  unfold formatExtraData
  by_cases h : CLIQUE_EXTRA_VANITY < e.length
  · rw [if_pos h]
    simp [List.length_take]
    omega
  · rw [if_neg h]
    simp
    omega

theorem take_of_formatExtraData_append (e x : Bytes) :
    (formatExtraData e ++ x).take CLIQUE_EXTRA_VANITY = formatExtraData e := by
  have h := formatExtraData_length e
  rw [List.take_append_eq_append_take]
  rw [h]
  simp [List.take_of_length_le (le_of_eq h)]

/-- C7: the block hash is computed from the header with `extraData` replaced
by the 32 vanity bytes followed by the evidence hashes only, so the votes
sealed by `generateFinalizedBlock` never affect block identity: for any
header data, transactions, evidence, proposal and commit round, blocks built
with two different precommit vote sets have equal block hashes. -/
theorem C7_blockHash_excludes_votes :
    ∀ (rlphash : List Bytes → Bytes) (data : HeaderData) (txs : List Bytes)
      (ev : List Evidence) (p : Proposal) (cr : Int) (vs1 vs2 : VoteSet),
      calcBlockHeaderRawHash rlphash (generateFinalizedBlock data txs ev p cr vs1).header ev =
      calcBlockHeaderRawHash rlphash (generateFinalizedBlock data txs ev p cr vs2).header ev := by
  intro rlphash data txs ev p cr vs1 vs2
  unfold calcBlockHeaderRawHash generateFinalizedBlock headerRaw
  simp [take_of_formatExtraData_append]

end Reimint

namespace Rei

/-! ## Claim C6 -/

/-- C6 counterexample: with the source's `CreateEmptyBlocksInterval = 0` and
no transaction-pool check anywhere in `enterNewRound`, entering round 0 on a
fresh machine performs the transition (the step becomes NewRound) but
schedules no NewRound timeout and never invokes `enterPropose` — the call is
silent, refuting "otherwise enterPropose(h, 0) is invoked immediately". -/
theorem C6_counterexample :
    CreateEmptyBlocksInterval ≤ 0 ∧
    exInitNS.round = 0 ∧ exInitNS.step = RoundStepType.NewHeight ∧ exInitNS.height = 1 ∧
    (enterNewRound exInitNS 1 0).out = [] ∧
    (enterNewRound exInitNS 1 0).err = none ∧
    (enterNewRound exInitNS 1 0).s.step = RoundStepType.NewRound := by decide

/-- C6 amended: in `enterNewRound(h, r)` with a passing guard, round 0 always
takes the wait-for-transactions branch (the pool is never consulted), which
with the source's `CreateEmptyBlocksInterval = 0` neither schedules a timeout
nor calls anything; `enterPropose` is invoked immediately exactly when
`r > 0`. -/
theorem C6_amended :
    ∀ (s : SMState) (hh : Nat) (r : Int),
      ¬(¬(s.height = hh) ∨ r < s.round ∨ (s.round = r ∧ ¬(s.step = RoundStepType.NewHeight))) →
      ((r = 0 → (enterNewRound s hh r).out = [] ∧ (enterNewRound s hh r).err = none) ∧
       (¬(r = 0) → Output.call CallTag.enterPropose hh r ∈ (enterNewRound s hh r).out)) := by
  intro s hh r hg
  unfold enterNewRound
  rw [if_neg hg]
  constructor
  · intro hr0
    simp [hr0, WaitForTxs, CreateEmptyBlocksInterval, Res.ok]
  · intro hr0
    have : ¬(WaitForTxs ∧ r = 0) := by
      intro hc
      exact hr0 hc.2
    rw [if_neg this]
    rw [out1_andThen]
    simp

/-- Witness for C6 amended, exercising both the silent round-0 branch and the
round-1 branch that invokes `enterPropose`. -/
theorem C6_amended_witness :
    (¬(¬(exInitNS.height = 1) ∨ (0 : Int) < exInitNS.round ∨
        (exInitNS.round = 0 ∧ ¬(exInitNS.step = RoundStepType.NewHeight)))) ∧
    ((enterNewRound exInitNS 1 0).out = [] ∧ (enterNewRound exInitNS 1 0).err = none) ∧
    (¬(¬(exInitNS.height = 1) ∨ (1 : Int) < exInitNS.round ∨
        (exInitNS.round = 1 ∧ ¬(exInitNS.step = RoundStepType.NewHeight)))) ∧
    Output.call CallTag.enterPropose 1 1 ∈ (enterNewRound exInitNS 1 1).out :=
  ⟨by decide,
   (C6_amended exInitNS 1 0 (by decide)).1 (by decide),
   by decide,
   (C6_amended exInitNS 1 1 (by decide)).2 (by decide)⟩

end Rei

namespace Rei

/-! ## Claim C9 -/

theorem andThen_fail_err (r : Res) (e : Err) :
    ¬((r.andThen (fun s => Res.fail s e)).err = none) := by
  unfold Res.andThen Res.fail
  cases hr : r.err <;> simp [hr]

/-- C9 counterexample: at `cs9` the precommit of validator 3 is successfully
added (completing the nil precommit majority of round 1), but the dispatch
then calls `enterPrecommit`, whose `POLInfo` consistency check throws
`invalid pol round` — so control never reaches the switch `default` branch
and its `unexpected vote type` throw. -/
theorem C9_counterexample :
    exceptOk (cs9.votes.addVote (pcv 3 1 EMPTY_HASH) "p") = true ∧
    (addVote cs9 (pcv 3 1 EMPTY_HASH) "p").err = some (Err.other "invalid pol round") ∧
    ((addVote cs9 (pcv 3 1 EMPTY_HASH) "p").s.votes.precommits 1).map (fun x => x.votes.length) = some 4 := by
  decide

/-- C9 amended: `addVote`'s vote-type switch has no `break`, so after a
successful `votes.addVote` the dispatch always terminates in a thrown error —
the `default` branch's `unexpected vote type` unless an invoked transition
throws first (as `enterPrecommit`'s `invalid pol round` check can); in every
case `addVote` exits exceptionally, and `tryAddVote` catches conflicting
votes and all other errors, so it never propagates an exception to the
message loop. -/
theorem C9_amended :
    (∀ (s : SMState) (v : Vote) (p : String), (tryAddVote s v p).err = none) ∧
    (∀ (s : SMState) (v : Vote) (p : String), ¬((addVote s v p).err = none)) := by
  constructor
  · intro s v p
    simp only [tryAddVote]
    rcases h : (addVote s v p).err with _ | e
    · simp [h]
    · rcases e with ⟨a, b⟩ | m
      · simp only [h]
        split <;> rfl
      · simp [h]
  · intro s v p
    unfold addVote
    rw [if_neg (not_not_intro rfl)]
    unfold addVoteCore
    split
    · -- votes.addVote failed: the error is rethrown
      simp [Res.fail]
    · -- votes.addVote succeeded: the switch ends in a throw
      rw [out1_andThen]
      exact fun h => andThen_fail_err _ _ h

end Rei

namespace Rei

/-! ## Claim C5 -/

theorem enterPrevote_err (s : SMState) (hh : Nat) (r : Int) :
    (enterPrevote s hh r).err = none := by
  unfold enterPrevote
  split
  · rfl
  · split
    · rw [andThen_err_none _ _ (signVote_err _ _ _)]
      rfl
    · split
      · rw [andThen_err_none _ _ (signVote_err _ _ _)]
        rfl
      · rw [andThen_err_none _ _ (signVote_err _ _ _)]
        rfl

theorem signVote_out_noPrecommitCall (s : SMState) (t : VoteType) (h : Bytes) :
    (signVote s t h).out.countP isPrecommitCall = 0 := by
  unfold signVote
  split
  · rfl
  · split <;> rfl

theorem enterPrevote_out_noPrecommitCall (s : SMState) (hh : Nat) (r : Int) :
    (enterPrevote s hh r).out.countP isPrecommitCall = 0 := by
  unfold enterPrevote
  split
  · rfl
  · split
    · rw [andThen_err_none _ _ (signVote_err _ _ _)]
      simp [List.countP_append, signVote_out_noPrecommitCall, newStep, Res.out1, isPrecommitCall]
    · split
      · rw [andThen_err_none _ _ (signVote_err _ _ _)]
        simp [List.countP_append, signVote_out_noPrecommitCall, newStep, Res.out1, isPrecommitCall]
      · rw [andThen_err_none _ _ (signVote_err _ _ _)]
        simp [List.countP_append, signVote_out_noPrecommitCall, newStep, Res.out1, isPrecommitCall]

theorem isProposalComplete_valid_irrel (s : SMState) (vr : Int) (vb : Option Block) :
    isProposalComplete { s with validRound := vr, validBlock := vb } = isProposalComplete s := rfl

/-- C5 counterexample: at `cs5` the round-0 precommits already hold a
two-thirds majority for `h1` and the accepted block completes the proposal at
step Propose, yet `addProposalBlock` only enters Prevote — it never calls
`enterPrecommit`, because the source consults the round's PREVOTES (which
have no majority here), not its precommits as the claim states. -/
theorem C5_counterexample :
    ((cs5.votes.precommits cs5.round).map (·.hasTwoThirdsMajority) = some true) ∧
    ((cs5.votes.prevotes cs5.round).bind (·.maj23) = none) ∧
    cs5.step.idx ≤ RoundStepType.Propose.idx ∧
    cs5.proposalBlock = none ∧ cs5.proposalBlockHash = some (Block_hash b1) ∧
    isProposalComplete { cs5 with proposalBlock := some b1 } = true ∧
    (addProposalBlock cs5 b1).out =
      [Output.call CallTag.enterPrevote 1 0, Output.newStep 1 0 RoundStepType.Prevote] ∧
    (addProposalBlock cs5 b1).s.step = RoundStepType.Prevote := by decide

theorem enterPrevote_height (s : SMState) (hh : Nat) (r : Int) :
    (enterPrevote s hh r).s.height = s.height := by
  unfold enterPrevote
  split
  · rfl
  · split
    · rw [andThen_err_none _ _ (signVote_err _ _ _)]
      simp [newStep, Res.out1, signVote_s]
    · split
      · rw [andThen_err_none _ _ (signVote_err _ _ _)]
        simp [newStep, Res.out1, signVote_s]
      · rw [andThen_err_none _ _ (signVote_err _ _ _)]
        simp [newStep, Res.out1, signVote_s]

theorem enterPrevote_round_self (s : SMState) (hh : Nat) :
    (enterPrevote s hh s.round).s.round = s.round := by
  unfold enterPrevote
  split
  · rfl
  · split
    · rw [andThen_err_none _ _ (signVote_err _ _ _)]
      simp [newStep, Res.out1, signVote_s]
    · split
      · rw [andThen_err_none _ _ (signVote_err _ _ _)]
        simp [newStep, Res.out1, signVote_s]
      · rw [andThen_err_none _ _ (signVote_err _ _ _)]
        simp [newStep, Res.out1, signVote_s]

theorem isProposalComplete_proj (s1 s2 : SMState)
    (hp : s1.proposal = s2.proposal) (hb : s1.proposalBlock = s2.proposalBlock)
    (hv : s1.votes = s2.votes) : isProposalComplete s1 = isProposalComplete s2 := by
  unfold isProposalComplete
  rw [hp, hb, hv]

theorem dispatch_tail_mem (s2 : SMState) (hh : Nat) (r : Int) (m : Bytes)
    (hhh : s2.height = hh) (hr : s2.round = r) :
    Output.call CallTag.enterPrecommit hh r ∈
      ((enterPrevote s2 s2.height s2.round).andThen (fun s =>
        if (some m).isSome = true then
          (Res.out1 s (Output.call CallTag.enterPrecommit s.height s.round)).andThen
            (fun s => enterPrecommit s s.height s.round)
        else Res.ok s)).out := by
  rw [andThen_err_none _ _ (enterPrevote_err _ _ _)]
  refine List.mem_append.mpr (Or.inr ?_)
  rw [if_pos (show (some m).isSome = true by simp)]
  rw [out1_andThen]
  refine List.mem_cons.mpr (Or.inl ?_)
  rw [enterPrevote_height, enterPrevote_round_self, hhh, hr]

/-- C5 amended: when `addProposalBlock` accepts and stores a block, then: if
`step ≤ Propose` and the proposal is complete it enters Prevote, and it
additionally enters Precommit exactly when the current round's PREVOTES
(not precommits, as the claim said) have a recorded `maj23`; if
`step = Commit` it calls `tryFinalizeCommit`. -/
theorem C5_amended :
    ∀ (s : SMState) (b : Block),
      s.proposalBlock = none →
      s.proposalBlockHash = some (Block_hash b) →
      (((s.step.idx ≤ RoundStepType.Propose.idx ∧
         isProposalComplete { s with proposalBlock := some b } = true) →
        Output.call CallTag.enterPrevote s.height s.round ∈ (addProposalBlock s b).out ∧
        (((s.votes.prevotes s.round).bind (·.maj23)).isSome = true →
          Output.call CallTag.enterPrecommit s.height s.round ∈ (addProposalBlock s b).out) ∧
        ((s.votes.prevotes s.round).bind (·.maj23) = none →
          (addProposalBlock s b).out.countP isPrecommitCall = 0)) ∧
       (s.step = RoundStepType.Commit →
        Output.call CallTag.tryFinalizeCommit s.height s.round ∈ (addProposalBlock s b).out)) := by
  intro s b hpb hpbh
  have hcomp : (isProposalComplete { s with proposalBlock := some b } = true) →
      ∀ (s2 : SMState), s2.proposal = s.proposal → s2.proposalBlock = some b →
      s2.votes = s.votes → isProposalComplete s2 = true := by
    intro hcond2 s2 hp hb hv
    refine (isProposalComplete_proj s2 { s with proposalBlock := some b } ?_ ?_ ?_).trans hcond2
    · exact hp
    · exact hb
    · exact hv
  unfold addProposalBlock
  rw [hpbh, hpb]
  rw [if_neg (show ¬((none : Option Block).isSome = true) by simp)]
  simp only []
  rw [if_neg (show ¬¬True from fun hc => hc trivial)]
  constructor
  · intro hcond
    refine ⟨?_, ?_, ?_⟩
    · -- the Prevote entry
      rcases hm : (s.votes.prevotes s.round).bind (·.maj23) with _ | m
      · simp only [hm]
        split
        · rw [out1_andThen]
          exact List.mem_cons_self _ _
        · rename_i hneg
          exact absurd ⟨hcond.1, hcomp hcond.2 _ rfl rfl rfl⟩ hneg
      · simp only [hm]
        split
        · split
          · split
            · rw [out1_andThen]
              exact List.mem_cons_self _ _
            · rename_i hneg
              exact absurd ⟨hcond.1, hcomp hcond.2 _ rfl rfl rfl⟩ hneg
          · split
            · rw [out1_andThen]
              exact List.mem_cons_self _ _
            · rename_i hneg
              exact absurd rfl hneg
        · split
          · rw [out1_andThen]
            exact List.mem_cons_self _ _
          · rename_i hneg
            exact absurd rfl hneg
    · -- the Precommit entry when the prevotes hold a majority
      intro hss
      rcases hm : (s.votes.prevotes s.round).bind (·.maj23) with _ | m
      · rw [hm] at hss
        simp at hss
      · simp only [hm]
        split
        · split
          · split
            · rw [out1_andThen]
              refine List.mem_cons_of_mem _ ?_
              refine dispatch_tail_mem _ _ _ m ?_ ?_
              · rfl
              · rfl
            · rename_i hneg
              exact absurd ⟨hcond.1, hcomp hcond.2 _ rfl rfl rfl⟩ hneg
          · split
            · rw [out1_andThen]
              refine List.mem_cons_of_mem _ ?_
              refine dispatch_tail_mem _ _ _ m ?_ ?_
              · rfl
              · rfl
            · rename_i hneg
              exact absurd rfl hneg
        · split
          · rw [out1_andThen]
            refine List.mem_cons_of_mem _ ?_
            refine dispatch_tail_mem _ _ _ m ?_ ?_
            · rfl
            · rfl
          · rename_i hneg
            exact absurd rfl hneg
    · -- no Precommit entry without a prevote majority
      intro hm
      simp only [hm]
      split
      · rw [out1_andThen]
        simp only [List.countP_cons]
        rw [andThen_err_none _ _ (enterPrevote_err _ _ _)]
        simp [List.countP_append, enterPrevote_out_noPrecommitCall, isPrecommitCall, Res.ok]
      · rename_i hneg
        exact absurd ⟨hcond.1, hcomp hcond.2 _ rfl rfl rfl⟩ hneg
  · intro hstep
    have hdec : ¬(s.step.idx ≤ RoundStepType.Propose.idx) := by
      rw [hstep]
      decide
    rcases hm : (s.votes.prevotes s.round).bind (·.maj23) with _ | m
    · simp only [hm]
      split
      · rename_i hpos
        exact absurd hpos.1 hdec
      · rw [out1_andThen]
        exact List.mem_cons_self _ _
    · simp only [hm]
      split
      · split
        · split
          · rename_i hpos
            exact absurd hpos.1 hdec
          · rw [out1_andThen]
            exact List.mem_cons_self _ _
        · split
          · rename_i hpos
            exact absurd hpos.1 hdec
          · rw [out1_andThen]
            exact List.mem_cons_self _ _
      · split
        · rename_i hpos
          exact absurd hpos.1 hdec
        · rw [out1_andThen]
          exact List.mem_cons_self _ _

/-- Witness for C5 amended at `cs5` with block `b1`. -/
theorem C5_amended_witness :
    cs5.proposalBlock = none ∧ cs5.proposalBlockHash = some (Block_hash b1) ∧
    (cs5.step.idx ≤ RoundStepType.Propose.idx ∧
      isProposalComplete { cs5 with proposalBlock := some b1 } = true) ∧
    Output.call CallTag.enterPrevote cs5.height cs5.round ∈ (addProposalBlock cs5 b1).out :=
  ⟨by decide, by decide, by decide,
   (((C5_amended cs5 b1 (by decide) (by decide)).1 (by decide)).1)⟩

theorem caseMarkers_append (a b : List Output) :
    caseMarkers (a ++ b) = caseMarkers a ++ caseMarkers b := by
  simp [caseMarkers]

theorem caseMarkers_andThen_nil (r : Res) (f : SMState → Res)
    (h1 : caseMarkers r.out = []) (h2 : ∀ s, caseMarkers (f s).out = []) :
    caseMarkers ((r.andThen f).out) = [] := by
  unfold Res.andThen
  split
  · exact h1
  · show caseMarkers (r.out ++ (f r.s).out) = []
    rw [caseMarkers_append, h1, h2]
    rfl

theorem signVote_noTC (s : SMState) (t : VoteType) (hash : Bytes) :
    caseMarkers (signVote s t hash).out = [] := by
  unfold signVote
  split
  · rfl
  · split <;> rfl

theorem enterPrevote_noTC (s : SMState) (hh : Nat) (r : Int) :
    caseMarkers (enterPrevote s hh r).out = [] := by
  unfold enterPrevote
  split
  · rfl
  · split
    · exact caseMarkers_andThen_nil _ _ (signVote_noTC _ _ _) (fun _ => rfl)
    · split
      · exact caseMarkers_andThen_nil _ _ (signVote_noTC _ _ _) (fun _ => rfl)
      · exact caseMarkers_andThen_nil _ _ (signVote_noTC _ _ _) (fun _ => rfl)

theorem decideProposal_noTC (s : SMState) (hh : Nat) (r : Int) :
    caseMarkers (decideProposal s hh r).out = [] := by
  unfold decideProposal
  split
  · exact caseMarkers_andThen_nil _ _ rfl (fun _ => rfl)
  · split
    · rfl
    · exact caseMarkers_andThen_nil _ _ rfl (fun _ => rfl)

theorem enterPropose_noTC (s : SMState) (hh : Nat) (r : Int) :
    caseMarkers (enterPropose s hh r).out = [] := by
  unfold enterPropose
  split
  · rfl
  · refine caseMarkers_andThen_nil _ _ rfl ?_
    intro s2
    split
    · refine caseMarkers_andThen_nil _ _ rfl ?_
      intro s3
      split
      · exact caseMarkers_andThen_nil _ _ rfl (fun _ => enterPrevote_noTC _ _ _)
      · rfl
    · split
      · refine caseMarkers_andThen_nil _ _ rfl ?_
        intro s3
        split
        · exact caseMarkers_andThen_nil _ _ rfl (fun _ => enterPrevote_noTC _ _ _)
        · rfl
      · refine caseMarkers_andThen_nil _ _ (decideProposal_noTC _ _ _) ?_
        intro s3
        refine caseMarkers_andThen_nil _ _ rfl ?_
        intro s4
        split
        · exact caseMarkers_andThen_nil _ _ rfl (fun _ => enterPrevote_noTC _ _ _)
        · rfl

theorem enterNewRound_noTC (s : SMState) (hh : Nat) (r : Int) :
    caseMarkers (enterNewRound s hh r).out = [] := by
  unfold enterNewRound
  split
  · rfl
  · split <;> split <;> split <;>
      first
        | exact caseMarkers_andThen_nil _ _ rfl (fun _ => enterPropose_noTC _ _ _)
        | split <;> rfl

theorem enterPrecommit_noTC (s : SMState) (hh : Nat) (r : Int) :
    caseMarkers (enterPrecommit s hh r).out = [] := by
  unfold enterPrecommit
  split
  · rfl
  · split
    · exact caseMarkers_andThen_nil _ _ (signVote_noTC _ _ _) (fun _ => rfl)
    · split
      · rfl
      · split
        · refine caseMarkers_andThen_nil _ _ ?_
            (fun s2 => caseMarkers_andThen_nil _ _ (signVote_noTC _ _ _) (fun _ => rfl))
          split
          · rfl
          · rfl
        · split
          · exact caseMarkers_andThen_nil _ _ (signVote_noTC _ _ _) (fun _ => rfl)
          · split
            · exact caseMarkers_andThen_nil _ _ (signVote_noTC _ _ _) (fun _ => rfl)
            · exact caseMarkers_andThen_nil _ _ rfl
                (fun s2 => caseMarkers_andThen_nil _ _ (signVote_noTC _ _ _) (fun _ => rfl))

theorem err_none_ne (r : Res) (e : Err) (h : r.err = none) : ¬(r.err = some e) := by
  rw [h]
  simp

theorem fail_err_ne (s : SMState) (e1 e2 : Err) (h : ¬(e1 = e2)) :
    ¬((Res.fail s e1).err = some e2) := fun hc => h (Option.some.inj hc)

theorem andThen_err_or (r : Res) (f : SMState → Res) :
    (r.andThen f).err = r.err ∨ (r.andThen f).err = (f r.s).err := by
  unfold Res.andThen
  split
  · exact Or.inl rfl
  · exact Or.inr rfl

theorem andThen_err_ne (r : Res) (f : SMState → Res) (e : Err)
    (h1 : ¬(r.err = some e)) (h2 : ∀ s, ¬((f s).err = some e)) :
    ¬((r.andThen f).err = some e) := by
  rcases andThen_err_or r f with h | h
  · rw [h]
    exact h1
  · rw [h]
    exact h2 _

theorem decideProposal_err_ne (s : SMState) (hh : Nat) (r : Int) :
    ¬((decideProposal s hh r).err = some invalidTimeoutErr) := by
  unfold decideProposal
  split
  · exact andThen_err_ne _ _ _ (err_none_ne _ _ rfl) (fun _ => err_none_ne _ _ rfl)
  · split
    · exact fail_err_ne _ _ _ (by decide)
    · exact andThen_err_ne _ _ _ (err_none_ne _ _ rfl) (fun _ => err_none_ne _ _ rfl)

theorem enterPropose_err_ne (s : SMState) (hh : Nat) (r : Int) :
    ¬((enterPropose s hh r).err = some invalidTimeoutErr) := by
  unfold enterPropose
  split
  · exact err_none_ne _ _ rfl
  · refine andThen_err_ne _ _ _ (err_none_ne _ _ rfl) ?_
    intro s2
    split
    · refine andThen_err_ne _ _ _ (err_none_ne _ _ rfl) ?_
      intro s3
      split
      · exact andThen_err_ne _ _ _ (err_none_ne _ _ rfl)
          (fun s4 => err_none_ne _ _ (enterPrevote_err _ _ _))
      · exact err_none_ne _ _ rfl
    · split
      · refine andThen_err_ne _ _ _ (err_none_ne _ _ rfl) ?_
        intro s3
        split
        · exact andThen_err_ne _ _ _ (err_none_ne _ _ rfl)
            (fun s4 => err_none_ne _ _ (enterPrevote_err _ _ _))
        · exact err_none_ne _ _ rfl
      · refine andThen_err_ne _ _ _ (decideProposal_err_ne _ _ _) ?_
        intro s3
        refine andThen_err_ne _ _ _ (err_none_ne _ _ rfl) ?_
        intro s4
        split
        · exact andThen_err_ne _ _ _ (err_none_ne _ _ rfl)
            (fun s5 => err_none_ne _ _ (enterPrevote_err _ _ _))
        · exact err_none_ne _ _ rfl

theorem enterNewRound_err_ne (s : SMState) (hh : Nat) (r : Int) :
    ¬((enterNewRound s hh r).err = some invalidTimeoutErr) := by
  unfold enterNewRound
  split
  · exact err_none_ne _ _ rfl
  · split <;> split <;> split <;>
      first
        | exact andThen_err_ne _ _ _ (err_none_ne _ _ rfl) (fun s2 => enterPropose_err_ne _ _ _)
        | split <;> exact err_none_ne _ _ rfl

theorem enterPrecommit_err_ne (s : SMState) (hh : Nat) (r : Int) :
    ¬((enterPrecommit s hh r).err = some invalidTimeoutErr) := by
  unfold enterPrecommit
  split
  · exact err_none_ne _ _ rfl
  · split
    · exact andThen_err_ne _ _ _ (err_none_ne _ _ (signVote_err _ _ _))
        (fun _ => err_none_ne _ _ rfl)
    · split
      · exact fail_err_ne _ _ _ (by decide)
      · split
        · refine andThen_err_ne _ _ _ ?_
            (fun s2 => andThen_err_ne _ _ _ (err_none_ne _ _ (signVote_err _ _ _))
              (fun _ => err_none_ne _ _ rfl))
          split
          · exact err_none_ne _ _ rfl
          · exact err_none_ne _ _ rfl
        · split
          · exact andThen_err_ne _ _ _ (err_none_ne _ _ (signVote_err _ _ _))
              (fun _ => err_none_ne _ _ rfl)
          · split
            · exact andThen_err_ne _ _ _ (err_none_ne _ _ (signVote_err _ _ _))
                (fun _ => err_none_ne _ _ rfl)
            · exact andThen_err_ne _ _ _ (err_none_ne _ _ rfl)
                (fun s2 => andThen_err_ne _ _ _ (err_none_ne _ _ (signVote_err _ _ _))
                  (fun _ => err_none_ne _ _ rfl))

theorem caseMarkers_tc_cons (st : RoundStepType) (l : List Output) :
    caseMarkers (Output.timeoutCase st :: l) = st :: caseMarkers l := by
  simp [caseMarkers, tcOf]

theorem c4chain_fail : C4Chain (fun s => Res.fail s invalidTimeoutErr) [] := by
  intro s
  refine ⟨?_, ⟨0, rfl⟩, fun _ => rfl, fun h => absurd rfl h⟩
  show ¬(some invalidTimeoutErr = none)
  simp

theorem mk_none_andThen (s0 : SMState) (out : List Output) (f : SMState → Res) :
    (Res.mk s0 out none).andThen f = ⟨(f s0).s, out ++ (f s0).out, (f s0).err⟩ := rfl

theorem mk_some_andThen (s0 : SMState) (out : List Output) (e : Err) (f : SMState → Res) :
    (Res.mk s0 out (some e)).andThen f = ⟨s0, out, some e⟩ := rfl

theorem c4chain_step (c : Prop) [Decidable c] (st : RoundStepType)
    (body : SMState → Res) (rest : SMState → Res) (tail : List RoundStepType)
    (hb1 : ∀ s, caseMarkers (body s).out = [])
    (hb2 : ∀ s, ¬((body s).err = some invalidTimeoutErr))
    (hr : C4Chain rest tail) :
    C4Chain
      (fun s => (if c then (Res.out1 s (Output.timeoutCase st)).andThen body
                 else Res.ok s).andThen rest)
      (if c then st :: tail else tail) := by
  intro s
  by_cases hc : c
  · simp only []
    rw [if_pos hc, out1_andThen]
    rcases hbe : (body s).err with _ | e
    · rw [mk_none_andThen]
      obtain ⟨q1, ⟨k, q2⟩, q3, q4⟩ := hr (body s).s
      refine ⟨q1, ⟨k + 1, ?_⟩, fun hdflt => ?_, fun _ => ?_⟩
      · show caseMarkers ((Output.timeoutCase st :: (body s).out) ++ (rest (body s).s).out) = _
        rw [List.cons_append, caseMarkers_tc_cons, caseMarkers_append, hb1, List.nil_append, q2,
          if_pos hc]
        rfl
      · show caseMarkers ((Output.timeoutCase st :: (body s).out) ++ (rest (body s).s).out) = _
        rw [List.cons_append, caseMarkers_tc_cons, caseMarkers_append, hb1, List.nil_append,
          q3 hdflt, if_pos hc]
      · show ¬(caseMarkers ((Output.timeoutCase st :: (body s).out) ++ (rest (body s).s).out) = [])
        rw [List.cons_append, caseMarkers_tc_cons]
        simp
    · rw [mk_some_andThen]
      refine ⟨?_, ⟨1, ?_⟩, fun hdflt => ?_, fun _ => ?_⟩
      · show ¬(some e = none)
        simp
      · show caseMarkers (Output.timeoutCase st :: (body s).out) = _
        rw [caseMarkers_tc_cons, hb1, if_pos hc]
        rfl
      · exact absurd (hbe.trans hdflt) (hb2 s)
      · show ¬(caseMarkers (Output.timeoutCase st :: (body s).out) = [])
        rw [caseMarkers_tc_cons]
        simp
  · simp only []
    rw [if_neg hc]
    rw [if_neg hc]
    exact hr s

/-- C4: `handleTimeout` executes its break-less `switch` cumulatively.  For
every timeout that passes the staleness check, the run always ends in a
throw; the executed case bodies are an in-order segment of the listed cases
starting at the one matching `ti.step` (an exception thrown inside a case
body cuts the run short); reaching the `default` throw means the matching
case body and every later listed case body ran; and when `ti.step` is a
listed label its own case body always starts. -/
theorem C4_switch_fall_through :
    ∀ (s : SMState) (ti : TimeoutInfo),
      ti.height = s.height → ¬(ti.round < s.round) →
      ¬(ti.round = s.round ∧ ti.step.idx < s.step.idx) →
      ¬((handleTimeout s ti).err = none) ∧
      (∃ k, caseMarkers (handleTimeout s ti).out = (caseTail ti.step).take k) ∧
      ((handleTimeout s ti).err = some invalidTimeoutErr →
        caseMarkers (handleTimeout s ti).out = caseTail ti.step) ∧
      (ti.step ∈ timeoutCaseList → ¬(caseMarkers (handleTimeout s ti).out = [])) := by
  intro s ti h1 h2 h3
  have hguard : ¬(¬(ti.height = s.height) ∨ ti.round < s.round ∨
      (ti.round = s.round ∧ ti.step.idx < s.step.idx)) :=
    fun hc => hc.elim (fun hA => hA h1) (fun hc2 => hc2.elim h2 h3)
  have H := c4chain_step (ti.step = RoundStepType.NewHeight) RoundStepType.NewHeight
    (fun s => (Res.out1 s (Output.call CallTag.enterNewRound ti.height 0)).andThen
      (fun s => enterNewRound s ti.height 0)) _ _
    (fun s2 => caseMarkers_andThen_nil _ _ rfl (fun s3 => enterNewRound_noTC _ _ _))
    (fun s2 => andThen_err_ne _ _ _ (err_none_ne _ _ rfl) (fun s3 => enterNewRound_err_ne _ _ _))
    (c4chain_step (ti.step = RoundStepType.NewHeight ∨ ti.step = RoundStepType.NewRound)
      RoundStepType.NewRound
      (fun s => (Res.out1 s (Output.call CallTag.enterPropose ti.height 0)).andThen
        (fun s => enterPropose s ti.height 0)) _ _
      (fun s2 => caseMarkers_andThen_nil _ _ rfl (fun s3 => enterPropose_noTC _ _ _))
      (fun s2 => andThen_err_ne _ _ _ (err_none_ne _ _ rfl) (fun s3 => enterPropose_err_ne _ _ _))
      (c4chain_step (ti.step = RoundStepType.NewHeight ∨ ti.step = RoundStepType.NewRound ∨
          ti.step = RoundStepType.Propose) RoundStepType.Propose
        (fun s => (Res.out1 s (Output.call CallTag.enterPrevote ti.height ti.round)).andThen
          (fun s => enterPrevote s ti.height ti.round)) _ _
        (fun s2 => caseMarkers_andThen_nil _ _ rfl (fun s3 => enterPrevote_noTC _ _ _))
        (fun s2 => andThen_err_ne _ _ _ (err_none_ne _ _ rfl)
          (fun s3 => err_none_ne _ _ (enterPrevote_err _ _ _)))
        (c4chain_step (ti.step = RoundStepType.NewHeight ∨ ti.step = RoundStepType.NewRound ∨
            ti.step = RoundStepType.Propose ∨ ti.step = RoundStepType.PrevoteWait)
          RoundStepType.PrevoteWait
          (fun s => (Res.out1 s (Output.call CallTag.enterPrecommit ti.height ti.round)).andThen
            (fun s => enterPrecommit s ti.height ti.round)) _ _
          (fun s2 => caseMarkers_andThen_nil _ _ rfl (fun s3 => enterPrecommit_noTC _ _ _))
          (fun s2 => andThen_err_ne _ _ _ (err_none_ne _ _ rfl)
            (fun s3 => enterPrecommit_err_ne _ _ _))
          (c4chain_step (ti.step = RoundStepType.NewHeight ∨ ti.step = RoundStepType.NewRound ∨
              ti.step = RoundStepType.Propose ∨ ti.step = RoundStepType.PrevoteWait ∨
              ti.step = RoundStepType.PrecommitWait) RoundStepType.PrecommitWait
            (fun s => (Res.out1 s (Output.call CallTag.enterPrecommit ti.height ti.round)).andThen
              (fun s => (enterPrecommit s ti.height ti.round).andThen
                (fun s => (Res.out1 s
                    (Output.call CallTag.enterNewRound ti.height (ti.round + 1))).andThen
                  (fun s => enterNewRound s ti.height (ti.round + 1))))) _ _
            (fun s2 => caseMarkers_andThen_nil _ _ rfl
              (fun s3 => caseMarkers_andThen_nil _ _ (enterPrecommit_noTC _ _ _)
                (fun s4 => caseMarkers_andThen_nil _ _ rfl
                  (fun s5 => enterNewRound_noTC _ _ _))))
            (fun s2 => andThen_err_ne _ _ _ (err_none_ne _ _ rfl)
              (fun s3 => andThen_err_ne _ _ _ (enterPrecommit_err_ne _ _ _)
                (fun s4 => andThen_err_ne _ _ _ (err_none_ne _ _ rfl)
                  (fun s5 => enterNewRound_err_ne _ _ _))))
            c4chain_fail))))
  obtain ⟨p1, p2, p3, p4⟩ := H s
  unfold handleTimeout
  rw [if_neg hguard]
  refine ⟨p1, ?_, ?_, fun hm => ?_⟩
  · cases htst : ti.step <;> (rw [htst] at p2; exact p2)
  · cases htst : ti.step <;> (rw [htst] at p3; exact p3)
  · cases htst : ti.step <;> rw [htst] at p4 hm <;>
      first
        | exact p4 (by decide)
        | exact absurd hm (by decide)

/-- Witness for C4 at `exInitNS` with a `NewHeight` timeout at height 1,
round 0: all five case bodies run and the `default` branch throws. -/
theorem C4_witness :
    ¬((handleTimeout exInitNS ⟨0, 1, 0, RoundStepType.NewHeight⟩).err = none) ∧
    (∃ k, caseMarkers (handleTimeout exInitNS ⟨0, 1, 0, RoundStepType.NewHeight⟩).out =
      (caseTail RoundStepType.NewHeight).take k) ∧
    ((handleTimeout exInitNS ⟨0, 1, 0, RoundStepType.NewHeight⟩).err = some invalidTimeoutErr →
      caseMarkers (handleTimeout exInitNS ⟨0, 1, 0, RoundStepType.NewHeight⟩).out =
        caseTail RoundStepType.NewHeight) ∧
    (RoundStepType.NewHeight ∈ timeoutCaseList →
      ¬(caseMarkers (handleTimeout exInitNS ⟨0, 1, 0, RoundStepType.NewHeight⟩).out = [])) :=
  C4_switch_fall_through exInitNS ⟨0, 1, 0, RoundStepType.NewHeight⟩
    (by decide) (by decide) (by decide)

theorem rsLe_refl (s : SMState) : rsLe s s := Or.inr ⟨rfl, le_refl _⟩

theorem rsLe_trans {a b c : SMState} (h1 : rsLe a b) (h2 : rsLe b c) : rsLe a c := by
  unfold rsLe at h1 h2 ⊢
  omega

theorem rsLe_same (s s2 : SMState) (h1 : s.round = s2.round) (h2 : s.step = s2.step) :
    rsLe s s2 := Or.inr ⟨h1, by rw [h2]⟩

theorem rsLe_mk (s s2 : SMState) (hr : ¬(s2.round < s.round))
    (hs : s.round = s2.round → s.step.idx ≤ s2.step.idx) : rsLe s s2 := by
  unfold rsLe
  rcases lt_or_eq_of_le (not_lt.mp hr) with h | h
  · exact Or.inl h
  · exact Or.inr ⟨h, hs h⟩

theorem mono_andThen (r : Res) (f : SMState → Res) (s : SMState)
    (h1 : s.height = r.s.height ∧ rsLe s r.s)
    (hf : ∀ s2, s2.height = (f s2).s.height ∧ rsLe s2 (f s2).s) :
    s.height = ((r.andThen f).s).height ∧ rsLe s (r.andThen f).s := by
  unfold Res.andThen
  split
  · exact h1
  · exact ⟨h1.1.trans (hf r.s).1, rsLe_trans h1.2 (hf r.s).2⟩

theorem tryFinalizeCommit_s (s : SMState) (hh : Nat) : (tryFinalizeCommit s hh).s = s := by
  unfold tryFinalizeCommit
  split
  · rfl
  · split
    · rfl
    · split
      · rfl
      · split
        · rfl
        · split
          · rfl
          · rfl

theorem decideProposal_s (s : SMState) (hh : Nat) (r : Int) : (decideProposal s hh r).s = s := by
  unfold decideProposal
  split
  · rfl
  · split
    · rfl
    · rfl

theorem enterPrevote_mono (s : SMState) (hh : Nat) (r : Int) :
    s.height = (enterPrevote s hh r).s.height ∧ rsLe s (enterPrevote s hh r).s := by
  unfold enterPrevote
  split
  · exact ⟨rfl, rsLe_refl s⟩
  · rename_i hg
    have hB : ¬(r < s.round) := fun hb => hg (Or.inr (Or.inl hb))
    have hC : ¬(s.round = r ∧ RoundStepType.Prevote.idx ≤ s.step.idx) :=
      fun hc => hg (Or.inr (Or.inr hc))
    split
    · rw [andThen_err_none _ _ (signVote_err _ _ _), signVote_s]
      refine ⟨rfl, rsLe_mk _ _ hB (fun he => ?_)⟩
      have h4 : ¬(RoundStepType.Prevote.idx ≤ s.step.idx) := fun hle => hC ⟨he, hle⟩
      show s.step.idx ≤ RoundStepType.Prevote.idx
      omega
    · split
      · rw [andThen_err_none _ _ (signVote_err _ _ _), signVote_s]
        refine ⟨rfl, rsLe_mk _ _ hB (fun he => ?_)⟩
        have h4 : ¬(RoundStepType.Prevote.idx ≤ s.step.idx) := fun hle => hC ⟨he, hle⟩
        show s.step.idx ≤ RoundStepType.Prevote.idx
        omega
      · rw [andThen_err_none _ _ (signVote_err _ _ _), signVote_s]
        refine ⟨rfl, rsLe_mk _ _ hB (fun he => ?_)⟩
        have h4 : ¬(RoundStepType.Prevote.idx ≤ s.step.idx) := fun hle => hC ⟨he, hle⟩
        show s.step.idx ≤ RoundStepType.Prevote.idx
        omega

theorem enterPrevoteWait_mono (s : SMState) (hh : Nat) (r : Int) :
    s.height = (enterPrevoteWait s hh r).s.height ∧ rsLe s (enterPrevoteWait s hh r).s := by
  unfold enterPrevoteWait
  split
  · exact ⟨rfl, rsLe_refl s⟩
  · rename_i hg
    have hB : ¬(r < s.round) := fun hb => hg (Or.inr (Or.inl hb))
    have hC : ¬(s.round = r ∧ RoundStepType.PrevoteWait.idx ≤ s.step.idx) :=
      fun hc => hg (Or.inr (Or.inr hc))
    split
    · exact ⟨rfl, rsLe_refl s⟩
    · rw [out1_andThen]
      refine ⟨rfl, rsLe_mk _ _ hB (fun he => ?_)⟩
      have h4 : ¬(RoundStepType.PrevoteWait.idx ≤ s.step.idx) := fun hle => hC ⟨he, hle⟩
      show s.step.idx ≤ RoundStepType.PrevoteWait.idx
      omega

theorem enterPrecommitWait_mono (s : SMState) (hh : Nat) (r : Int) :
    s.height = (enterPrecommitWait s hh r).s.height ∧ rsLe s (enterPrecommitWait s hh r).s := by
  unfold enterPrecommitWait
  split
  · exact ⟨rfl, rsLe_refl s⟩
  · split
    · exact ⟨rfl, rsLe_refl s⟩
    · rw [out1_andThen]
      exact ⟨rfl, rsLe_same _ _ rfl rfl⟩

theorem enterPrecommit_mono (s : SMState) (hh : Nat) (r : Int) :
    s.height = (enterPrecommit s hh r).s.height ∧ rsLe s (enterPrecommit s hh r).s := by
  unfold enterPrecommit
  split
  · exact ⟨rfl, rsLe_refl s⟩
  · rename_i hg
    have hB : ¬(r < s.round) := fun hb => hg (Or.inr (Or.inl hb))
    have hC : ¬(s.round = r ∧ RoundStepType.Precommit.idx ≤ s.step.idx) :=
      fun hc => hg (Or.inr (Or.inr hc))
    have key : ∀ (s2 : SMState), s2.round = r → s2.step = RoundStepType.Precommit →
        rsLe s s2 := by
      intro s2 hxr hxs
      refine rsLe_mk _ _ ?_ (fun he => ?_)
      · rw [hxr]
        exact hB
      · rw [hxr] at he
        have h4 : ¬(RoundStepType.Precommit.idx ≤ s.step.idx) := fun hle => hC ⟨he, hle⟩
        rw [hxs]
        show s.step.idx ≤ RoundStepType.Precommit.idx
        omega
    split
    · rw [andThen_err_none _ _ (signVote_err _ _ _), signVote_s]
      exact ⟨rfl, key _ rfl rfl⟩
    · split
      · exact ⟨rfl, rsLe_refl s⟩
      · split
        · split
          · rw [ok_andThen, andThen_err_none _ _ (signVote_err _ _ _), signVote_s]
            exact ⟨rfl, key _ rfl rfl⟩
          · rw [out1_andThen, andThen_err_none _ _ (signVote_err _ _ _), signVote_s]
            exact ⟨rfl, key _ rfl rfl⟩
        · split
          · rw [andThen_err_none _ _ (signVote_err _ _ _), signVote_s]
            exact ⟨rfl, key _ rfl rfl⟩
          · split
            · rw [andThen_err_none _ _ (signVote_err _ _ _), signVote_s]
              exact ⟨rfl, key _ rfl rfl⟩
            · rw [out1_andThen]
              simp only []
              split
              · rw [andThen_err_none _ _ (signVote_err _ _ _), signVote_s]
                exact ⟨rfl, key _ rfl rfl⟩
              · rw [andThen_err_none _ _ (signVote_err _ _ _), signVote_s]
                exact ⟨rfl, key _ rfl rfl⟩

theorem enterPropose_mono (s : SMState) (hh : Nat) (r : Int) :
    s.height = (enterPropose s hh r).s.height ∧ rsLe s (enterPropose s hh r).s := by
  unfold enterPropose
  split
  · exact ⟨rfl, rsLe_refl s⟩
  · rename_i hg
    have hB : ¬(r < s.round) := fun hb => hg (Or.inr (Or.inl hb))
    have hC : ¬(s.round = r ∧ RoundStepType.Propose.idx ≤ s.step.idx) :=
      fun hc => hg (Or.inr (Or.inr hc))
    have key : rsLe s { s with round := r, step := RoundStepType.Propose } := by
      refine rsLe_mk _ _ hB (fun he => ?_)
      have h4 : ¬(RoundStepType.Propose.idx ≤ s.step.idx) := fun hle => hC ⟨he, hle⟩
      show s.step.idx ≤ RoundStepType.Propose.idx
      omega
    rw [out1_andThen]
    simp only []
    split
    · rw [andThen_err_none _ _ rfl]
      simp only []
      split
      · exact mono_andThen _ _ _ ⟨rfl, key⟩ (fun s2 => enterPrevote_mono s2 hh r)
      · exact ⟨rfl, key⟩
    · split
      · rw [andThen_err_none _ _ rfl]
        simp only []
        split
        · exact mono_andThen _ _ _ ⟨rfl, key⟩ (fun s2 => enterPrevote_mono s2 hh r)
        · exact ⟨rfl, key⟩
      · rcases hdp : (decideProposal s hh r).err with _ | e
        · rw [andThen_err_none _ _ hdp, decideProposal_s]
          rw [andThen_err_none _ _ rfl]
          simp only []
          split
          · exact mono_andThen _ _ _ ⟨rfl, key⟩ (fun s2 => enterPrevote_mono s2 hh r)
          · exact ⟨rfl, key⟩
        · rw [andThen_err_some _ _ _ hdp, decideProposal_s]
          exact ⟨rfl, rsLe_refl s⟩

theorem enterNewRound_mono (s : SMState) (hh : Nat) (r : Int) :
    s.height = (enterNewRound s hh r).s.height ∧ rsLe s (enterNewRound s hh r).s := by
  unfold enterNewRound
  split
  · exact ⟨rfl, rsLe_refl s⟩
  · rename_i hg
    have hB : ¬(r < s.round) := fun hb => hg (Or.inr (Or.inl hb))
    have hC : ¬(s.round = r ∧ ¬(s.step = RoundStepType.NewHeight)) :=
      fun hc => hg (Or.inr (Or.inr hc))
    have hstep : s.round = r → s.step = RoundStepType.NewHeight :=
      fun he => not_not.mp (fun hne => hC ⟨he, hne⟩)
    have key : ∀ (x : SMState), x.round = r → x.step = RoundStepType.NewRound → rsLe s x := by
      intro x hxr hxs
      refine rsLe_mk _ _ ?_ (fun he => ?_)
      · rw [hxr]
        exact hB
      · rw [hxr] at he
        rw [hxs, hstep he]
        decide
    split <;> split <;> split <;>
      first
        | exact mono_andThen _ _ _ ⟨rfl, key _ rfl rfl⟩ (fun s2 => enterPropose_mono s2 hh r)
        | (split <;> exact ⟨rfl, key _ rfl rfl⟩)

theorem tryFinalizeCommit_mono (s : SMState) (hh : Nat) :
    s.height = (tryFinalizeCommit s hh).s.height ∧ rsLe s (tryFinalizeCommit s hh).s := by
  rw [tryFinalizeCommit_s]
  exact ⟨rfl, rsLe_refl s⟩

theorem enterCommit_mono (s : SMState) (hh : Nat) (cr : Int) :
    s.height = (enterCommit s hh cr).s.height ∧ rsLe s (enterCommit s hh cr).s := by
  unfold enterCommit
  split
  · exact ⟨rfl, rsLe_refl s⟩
  · rename_i hg
    have h2 : ¬(RoundStepType.Commit.idx ≤ s.step.idx) := fun hb => hg (Or.inr hb)
    split
    · exact ⟨rfl, rsLe_refl s⟩
    · simp only []
      split <;> split <;>
        first
          | exact mono_andThen _ _ _
              ⟨rfl, Or.inr ⟨rfl, by show s.step.idx ≤ RoundStepType.Commit.idx; omega⟩⟩
              (fun s2 => mono_andThen _ _ _ ⟨rfl, rsLe_refl s2⟩
                (fun s3 => tryFinalizeCommit_mono s3 hh))
          | (split <;>
              exact mono_andThen _ _ _
                ⟨rfl, Or.inr ⟨rfl, by show s.step.idx ≤ RoundStepType.Commit.idx; omega⟩⟩
                (fun s2 => mono_andThen _ _ _ ⟨rfl, rsLe_refl s2⟩
                  (fun s3 => tryFinalizeCommit_mono s3 hh)))

theorem setProposal_mono (s : SMState) (p : Proposal) :
    s.height = (setProposal s p).s.height ∧ rsLe s (setProposal s p).s := by
  unfold setProposal
  split
  · exact ⟨rfl, rsLe_refl s⟩
  · split
    · exact ⟨rfl, rsLe_refl s⟩
    · split
      · exact ⟨rfl, rsLe_refl s⟩
      · split
        · exact ⟨rfl, rsLe_refl s⟩
        · simp only []
          split
          · exact ⟨rfl, rsLe_same _ _ rfl rfl⟩
          · exact ⟨rfl, rsLe_same _ _ rfl rfl⟩

theorem addProposalBlock_mono (s : SMState) (b : Block) :
    s.height = (addProposalBlock s b).s.height ∧ rsLe s (addProposalBlock s b).s := by
  unfold addProposalBlock
  split
  · exact ⟨rfl, rsLe_refl s⟩
  · split
    · exact ⟨rfl, rsLe_refl s⟩
    · split
      · exact ⟨rfl, rsLe_refl s⟩
      · simp only []
        repeat' split
        all_goals
          first
            | exact ⟨rfl, rsLe_same _ _ rfl rfl⟩
            | exact mono_andThen _ _ _ ⟨rfl, rsLe_same _ _ rfl rfl⟩
                (fun s2 => mono_andThen _ _ _ (enterPrevote_mono s2 s2.height s2.round)
                  (fun s3 => mono_andThen _ _ _ ⟨rfl, rsLe_refl s3⟩
                    (fun s4 => enterPrecommit_mono s4 s4.height s4.round)))
            | exact mono_andThen _ _ _ ⟨rfl, rsLe_same _ _ rfl rfl⟩
                (fun s2 => mono_andThen _ _ _ (enterPrevote_mono s2 s2.height s2.round)
                  (fun s3 => ⟨rfl, rsLe_refl s3⟩))
            | exact mono_andThen _ _ _ ⟨rfl, rsLe_same _ _ rfl rfl⟩
                (fun s2 => tryFinalizeCommit_mono s2 s2.height)

theorem prevoteBody_mono (s : SMState) (v : Vote) :
    s.height = (prevoteBody s v).s.height ∧ rsLe s (prevoteBody s v).s := by
  unfold prevoteBody
  simp only []
  refine mono_andThen _ _ _ ?_ ?_
  · split
    · exact ⟨rfl, rsLe_refl s⟩
    · refine mono_andThen _ _ _ ?_ ?_
      · split
        · split
          · exact ⟨rfl, rsLe_same _ _ rfl rfl⟩
          · exact ⟨rfl, rsLe_refl s⟩
        · exact ⟨rfl, rsLe_refl s⟩
      · intro s2
        repeat' split
        all_goals exact ⟨rfl, rsLe_same _ _ rfl rfl⟩
  · intro s2
    split
    · exact mono_andThen _ _ _ ⟨rfl, rsLe_refl s2⟩
        (fun s3 => enterNewRound_mono s3 s3.height v.round)
    · split
      · split
        · exact mono_andThen _ _ _ ⟨rfl, rsLe_refl s2⟩
            (fun s3 => enterPrecommit_mono s3 s3.height v.round)
        · split
          · exact mono_andThen _ _ _ ⟨rfl, rsLe_refl s2⟩
              (fun s3 => enterPrevoteWait_mono s3 s3.height v.round)
          · exact ⟨rfl, rsLe_refl s2⟩
      · split
        · split
          · split
            · exact mono_andThen _ _ _ ⟨rfl, rsLe_refl s2⟩
                (fun s3 => enterPrevote_mono s3 s3.height s3.round)
            · exact ⟨rfl, rsLe_refl s2⟩
          · exact ⟨rfl, rsLe_refl s2⟩
        · exact ⟨rfl, rsLe_refl s2⟩

theorem precommitBody_mono (s : SMState) (v : Vote) :
    s.height = (precommitBody s v).s.height ∧ rsLe s (precommitBody s v).s := by
  unfold precommitBody
  simp only []
  split
  · refine mono_andThen _ _ _ ⟨rfl, rsLe_refl s⟩ ?_
    intro s2
    refine mono_andThen _ _ _ (enterNewRound_mono s2 s2.height v.round) ?_
    intro s3
    refine mono_andThen _ _ _ ⟨rfl, rsLe_refl s3⟩ ?_
    intro s4
    refine mono_andThen _ _ _ (enterPrecommit_mono s4 s4.height v.round) ?_
    intro s5
    split
    · refine mono_andThen _ _ _ ⟨rfl, rsLe_refl s5⟩ ?_
      intro s6
      refine mono_andThen _ _ _ (enterCommit_mono s6 s6.height v.round) ?_
      intro s7
      split
      · exact mono_andThen _ _ _ ⟨rfl, rsLe_refl s7⟩
          (fun s8 => enterNewRound_mono s8 s8.height 0)
      · exact ⟨rfl, rsLe_refl s7⟩
    · exact mono_andThen _ _ _ ⟨rfl, rsLe_refl s5⟩
        (fun s6 => enterPrecommitWait_mono s6 s6.height v.round)
  · split
    · refine mono_andThen _ _ _ ⟨rfl, rsLe_refl s⟩ ?_
      intro s2
      refine mono_andThen _ _ _ (enterNewRound_mono s2 s2.height v.round) ?_
      intro s3
      exact mono_andThen _ _ _ ⟨rfl, rsLe_refl s3⟩
        (fun s4 => enterPrecommitWait_mono s4 s4.height v.round)
    · exact ⟨rfl, rsLe_refl s⟩

theorem addVoteCore_mono (s : SMState) (v : Vote) (pid : String) :
    s.height = (addVoteCore s v pid).s.height ∧ rsLe s (addVoteCore s v pid).s := by
  unfold addVoteCore
  split
  · exact ⟨rfl, rsLe_refl s⟩
  · simp only []
    refine mono_andThen _ _ _ ⟨rfl, rsLe_same _ _ rfl rfl⟩ ?_
    intro s2
    refine mono_andThen _ _ _ ?_ ?_
    · refine mono_andThen _ _ _ ?_ ?_
      · split
        · exact prevoteBody_mono s2 v
        · exact ⟨rfl, rsLe_refl s2⟩
      · intro s3
        split
        · exact precommitBody_mono s3 v
        · exact ⟨rfl, rsLe_refl s3⟩
    · intro s3
      exact ⟨rfl, rsLe_refl s3⟩

theorem addVote_mono (s : SMState) (v : Vote) (pid : String) :
    s.height = (addVote s v pid).s.height ∧ rsLe s (addVote s v pid).s := by
  unfold addVote
  split
  · exact ⟨rfl, rsLe_refl s⟩
  · exact addVoteCore_mono s v pid

theorem tryAddVote_mono (s : SMState) (v : Vote) (pid : String) :
    s.height = (tryAddVote s v pid).s.height ∧ rsLe s (tryAddVote s v pid).s := by
  unfold tryAddVote
  simp only []
  split
  · exact addVote_mono s v pid
  · split
    · exact addVote_mono s v pid
    · exact addVote_mono s v pid
  · exact addVote_mono s v pid

theorem handleTimeout_mono (s : SMState) (ti : TimeoutInfo) :
    s.height = (handleTimeout s ti).s.height ∧ rsLe s (handleTimeout s ti).s := by
  unfold handleTimeout
  split
  · exact ⟨rfl, rsLe_refl s⟩
  · refine mono_andThen _ _ _ ?_ ?_
    · split
      · exact mono_andThen _ _ _ ⟨rfl, rsLe_refl s⟩ (fun s2 =>
          mono_andThen _ _ _ ⟨rfl, rsLe_refl s2⟩ (fun s3 => enterNewRound_mono s3 ti.height 0))
      · exact ⟨rfl, rsLe_refl s⟩
    · intro a1
      refine mono_andThen _ _ _ ?_ ?_
      · split
        · exact mono_andThen _ _ _ ⟨rfl, rsLe_refl a1⟩ (fun s2 =>
            mono_andThen _ _ _ ⟨rfl, rsLe_refl s2⟩ (fun s3 => enterPropose_mono s3 ti.height 0))
        · exact ⟨rfl, rsLe_refl a1⟩
      · intro a2
        refine mono_andThen _ _ _ ?_ ?_
        · split
          · exact mono_andThen _ _ _ ⟨rfl, rsLe_refl a2⟩ (fun s2 =>
              mono_andThen _ _ _ ⟨rfl, rsLe_refl s2⟩
                (fun s3 => enterPrevote_mono s3 ti.height ti.round))
          · exact ⟨rfl, rsLe_refl a2⟩
        · intro a3
          refine mono_andThen _ _ _ ?_ ?_
          · split
            · exact mono_andThen _ _ _ ⟨rfl, rsLe_refl a3⟩ (fun s2 =>
                mono_andThen _ _ _ ⟨rfl, rsLe_refl s2⟩
                  (fun s3 => enterPrecommit_mono s3 ti.height ti.round))
            · exact ⟨rfl, rsLe_refl a3⟩
          · intro a4
            refine mono_andThen _ _ _ ?_ ?_
            · split
              · exact mono_andThen _ _ _ ⟨rfl, rsLe_refl a4⟩ (fun s2 =>
                  mono_andThen _ _ _ ⟨rfl, rsLe_refl s2⟩ (fun s3 =>
                    mono_andThen _ _ _ (enterPrecommit_mono s3 ti.height ti.round) (fun s4 =>
                      mono_andThen _ _ _ ⟨rfl, rsLe_refl s4⟩
                        (fun s5 => enterNewRound_mono s5 ti.height (ti.round + 1)))))
              · exact ⟨rfl, rsLe_refl a4⟩
            · intro a5
              exact ⟨rfl, rsLe_refl a5⟩

theorem applyEvent_mono (s : SMState) (e : Event) (hq : e.isQueueEvent = true) :
    s.height = (applyEvent s e).height ∧ rsLe s (applyEvent s e) := by
  cases e with
  | propMsg p => exact setProposal_mono s p
  | blockMsg b => exact addProposalBlock_mono s b
  | voteMsg v pid => exact tryAddVote_mono s v pid
  | timeout ti => exact handleTimeout_mono s ti
  | newHeader hn hhash vals => simp [Event.isQueueEvent] at hq

theorem applyEvents_mono (s : SMState) (es : List Event)
    (hq : ∀ e ∈ es, e.isQueueEvent = true) :
    s.height = (applyEvents s es).height ∧ rsLe s (applyEvents s es) := by
  induction es generalizing s with
  | nil => exact ⟨rfl, rsLe_refl s⟩
  | cons e es ih =>
    have h1 := applyEvent_mono s e (hq e (List.mem_cons_self _ _))
    have h2 := ih (applyEvent s e) (fun e2 he2 => hq e2 (List.mem_cons_of_mem _ he2))
    exact ⟨h1.1.trans h2.1, rsLe_trans h1.2 h2.2⟩

/-- C3 counterexample: at `cs3` (height 1, round 1, step Prevote, with a
round-0 precommit majority) the call `enterCommit(1, 0)` has `round = 0`
strictly below the current round 1, yet it is not a no-op: the guard at
state.ts lines 688-691 checks only the height and `step < Commit`, so the
machine transitions to step Commit with `commitRound = 0`. -/
theorem C3_counterexample :
    cs3.height = 1 ∧ (0 : Int) < cs3.round ∧ cs3.step.idx < RoundStepType.Commit.idx ∧
    ¬(enterCommit cs3 1 0 = Res.ok cs3) ∧
    (enterCommit cs3 1 0).s.step = RoundStepType.Commit ∧
    (enterCommit cs3 1 0).s.commitRound = 0 ∧
    (enterCommit cs3 1 0).s.round = 1 := by decide

/-- C3 amended: the six transitions `enterNewRound`, `enterPropose`,
`enterPrevote`, `enterPrevoteWait`, `enterPrecommit` and `enterPrecommitWait`
are no-ops under their source guards (height mismatch, stale round, or the
listed step/flag condition at an equal round), but `enterCommit` checks only
the height and `step < Commit` - not the round (see the counterexample).
Nevertheless, over any sequence of events delivered through the message
queue, the height is preserved and the pair `(round, step)` is
non-decreasing. -/
theorem C3_amended :
    (∀ (s : SMState) (hh : Nat) (r : Int),
      ((¬(s.height = hh) ∨ r < s.round ∨ (s.round = r ∧ ¬(s.step = RoundStepType.NewHeight))) →
        enterNewRound s hh r = Res.ok s) ∧
      ((¬(s.height = hh) ∨ r < s.round ∨ (s.round = r ∧ RoundStepType.Propose.idx ≤ s.step.idx)) →
        enterPropose s hh r = Res.ok s) ∧
      ((¬(s.height = hh) ∨ r < s.round ∨ (s.round = r ∧ RoundStepType.Prevote.idx ≤ s.step.idx)) →
        enterPrevote s hh r = Res.ok s) ∧
      ((¬(s.height = hh) ∨ r < s.round ∨
          (s.round = r ∧ RoundStepType.PrevoteWait.idx ≤ s.step.idx)) →
        enterPrevoteWait s hh r = Res.ok s) ∧
      ((¬(s.height = hh) ∨ r < s.round ∨
          (s.round = r ∧ RoundStepType.Precommit.idx ≤ s.step.idx)) →
        enterPrecommit s hh r = Res.ok s) ∧
      ((¬(s.height = hh) ∨ r < s.round ∨ (s.round = r ∧ s.triggeredTimeoutPrecommit = true)) →
        enterPrecommitWait s hh r = Res.ok s) ∧
      ((¬(s.height = hh) ∨ RoundStepType.Commit.idx ≤ s.step.idx) →
        enterCommit s hh r = Res.ok s)) ∧
    (∀ (s : SMState) (es : List Event), (∀ e ∈ es, e.isQueueEvent = true) →
      (applyEvents s es).height = s.height ∧ rsLe s (applyEvents s es)) := by
  constructor
  · intro s hh r
    refine ⟨fun h => ?_, fun h => ?_, fun h => ?_, fun h => ?_, fun h => ?_, fun h => ?_,
      fun h => ?_⟩
    · unfold enterNewRound
      rw [if_pos h]
    · unfold enterPropose
      rw [if_pos h]
    · unfold enterPrevote
      rw [if_pos h]
    · unfold enterPrevoteWait
      rw [if_pos h]
    · unfold enterPrecommit
      rw [if_pos h]
    · unfold enterPrecommitWait
      rw [if_pos h]
    · unfold enterCommit
      rw [if_pos h]
  · intro s es hq
    have h := applyEvents_mono s es hq
    exact ⟨h.1.symm, h.2⟩

/-- Witness for C3 amended: `enterCommit` with a wrong height is a no-op at
`cs3`, and a `NewHeight` timeout at `exInit` preserves the height and
advances `(round, step)`. -/
theorem C3_amended_witness :
    enterCommit cs3 2 0 = Res.ok cs3 ∧
    (applyEvents exInit [Event.timeout ⟨0, 1, 0, RoundStepType.NewHeight⟩]).height =
      exInit.height ∧
    rsLe exInit (applyEvents exInit [Event.timeout ⟨0, 1, 0, RoundStepType.NewHeight⟩]) :=
  ⟨(C3_amended.1 cs3 2 0).2.2.2.2.2.2 (by decide),
   (C3_amended.2 exInit [Event.timeout ⟨0, 1, 0, RoundStepType.NewHeight⟩] (by decide)).1,
   (C3_amended.2 exInit [Event.timeout ⟨0, 1, 0, RoundStepType.NewHeight⟩] (by decide)).2⟩

theorem andThen_s_or (r : Res) (f : SMState → Res) :
    (r.andThen f).s = r.s ∨ (r.andThen f).s = (f r.s).s := by
  unfold Res.andThen
  split
  · exact Or.inl rfl
  · exact Or.inr rfl

theorem andThen_fail_s (r : Res) (e : Err) : (r.andThen (fun s => Res.fail s e)).s = r.s := by
  unfold Res.andThen
  split
  · rfl
  · rfl

theorem pb_andThen (r : Res) (f : SMState → Res) {P : Prop}
    (hr : r.s.step = RoundStepType.Commit → P)
    (hf : ∀ x, (f x).s.step = RoundStepType.Commit → x.step = RoundStepType.Commit) :
    (r.andThen f).s.step = RoundStepType.Commit → P := by
  rcases andThen_s_or r f with h | h
  · rw [h]
    exact hr
  · rw [h]
    exact fun hc => hr (hf _ hc)

theorem commitOK_andThen (r : Res) (f : SMState → Res)
    (hr : ¬(r.s.step = RoundStepType.Commit))
    (hf : ∀ x, ¬(x.step = RoundStepType.Commit) → CommitOK (f x).s) :
    CommitOK ((r.andThen f).s) := by
  rcases andThen_s_or r f with h | h
  · rw [h]
    exact fun hc => absurd hc hr
  · rw [h]
    exact hf r.s hr

theorem setProposal_step (s : SMState) (p : Proposal) : (setProposal s p).s.step = s.step := by
  unfold setProposal
  split
  · rfl
  · split
    · rfl
    · split
      · rfl
      · split
        · rfl
        · simp only []
          split <;> rfl

theorem tryAddVote_s (s : SMState) (v : Vote) (pid : String) :
    (tryAddVote s v pid).s = (addVote s v pid).s := by
  unfold tryAddVote
  simp only []
  split
  · rfl
  · split <;> rfl
  · rfl

theorem enterPrevote_pb (s : SMState) (hh : Nat) (r : Int) :
    (enterPrevote s hh r).s.step = RoundStepType.Commit → s.step = RoundStepType.Commit := by
  unfold enterPrevote
  split
  · exact fun h => h
  · split
    · rw [andThen_err_none _ _ (signVote_err _ _ _), signVote_s]
      exact fun h =>
        absurd (show RoundStepType.Prevote = RoundStepType.Commit from h) (by decide)
    · split
      · rw [andThen_err_none _ _ (signVote_err _ _ _), signVote_s]
        exact fun h =>
          absurd (show RoundStepType.Prevote = RoundStepType.Commit from h) (by decide)
      · rw [andThen_err_none _ _ (signVote_err _ _ _), signVote_s]
        exact fun h =>
          absurd (show RoundStepType.Prevote = RoundStepType.Commit from h) (by decide)

theorem enterPrevoteWait_pb (s : SMState) (hh : Nat) (r : Int) :
    (enterPrevoteWait s hh r).s.step = RoundStepType.Commit →
      s.step = RoundStepType.Commit := by
  unfold enterPrevoteWait
  split
  · exact fun h => h
  · split
    · exact fun h => h
    · rw [out1_andThen]
      exact fun h =>
        absurd (show RoundStepType.PrevoteWait = RoundStepType.Commit from h) (by decide)

theorem enterPrecommitWait_step (s : SMState) (hh : Nat) (r : Int) :
    (enterPrecommitWait s hh r).s.step = s.step := by
  unfold enterPrecommitWait
  split
  · rfl
  · split
    · rfl
    · rw [out1_andThen]
      rfl

theorem enterPrecommit_pb (s : SMState) (hh : Nat) (r : Int) :
    (enterPrecommit s hh r).s.step = RoundStepType.Commit → s.step = RoundStepType.Commit := by
  unfold enterPrecommit
  split
  · exact fun h => h
  · split
    · rw [andThen_err_none _ _ (signVote_err _ _ _), signVote_s]
      exact fun h =>
        absurd (show RoundStepType.Precommit = RoundStepType.Commit from h) (by decide)
    · split
      · exact fun h => h
      · split
        · split
          · rw [ok_andThen, andThen_err_none _ _ (signVote_err _ _ _), signVote_s]
            exact fun h =>
              absurd (show RoundStepType.Precommit = RoundStepType.Commit from h) (by decide)
          · rw [out1_andThen, andThen_err_none _ _ (signVote_err _ _ _), signVote_s]
            exact fun h =>
              absurd (show RoundStepType.Precommit = RoundStepType.Commit from h) (by decide)
        · split
          · rw [andThen_err_none _ _ (signVote_err _ _ _), signVote_s]
            exact fun h =>
              absurd (show RoundStepType.Precommit = RoundStepType.Commit from h) (by decide)
          · split
            · rw [andThen_err_none _ _ (signVote_err _ _ _), signVote_s]
              exact fun h =>
                absurd (show RoundStepType.Precommit = RoundStepType.Commit from h) (by decide)
            · rw [out1_andThen]
              simp only []
              split
              · rw [andThen_err_none _ _ (signVote_err _ _ _), signVote_s]
                exact fun h =>
                  absurd (show RoundStepType.Precommit = RoundStepType.Commit from h)
                    (by decide)
              · rw [andThen_err_none _ _ (signVote_err _ _ _), signVote_s]
                exact fun h =>
                  absurd (show RoundStepType.Precommit = RoundStepType.Commit from h)
                    (by decide)

theorem enterPropose_pb (s : SMState) (hh : Nat) (r : Int) :
    (enterPropose s hh r).s.step = RoundStepType.Commit → s.step = RoundStepType.Commit := by
  unfold enterPropose
  split
  · exact fun h => h
  · rw [out1_andThen]
    simp only []
    split
    · rw [andThen_err_none _ _ rfl]
      simp only []
      split
      · exact fun h =>
          absurd (show RoundStepType.Propose = RoundStepType.Commit from
            enterPrevote_pb _ hh r h) (by decide)
      · exact fun h =>
          absurd (show RoundStepType.Propose = RoundStepType.Commit from h) (by decide)
    · split
      · rw [andThen_err_none _ _ rfl]
        simp only []
        split
        · exact fun h =>
            absurd (show RoundStepType.Propose = RoundStepType.Commit from
              enterPrevote_pb _ hh r h) (by decide)
        · exact fun h =>
            absurd (show RoundStepType.Propose = RoundStepType.Commit from h) (by decide)
      · rcases hdp : (decideProposal s hh r).err with _ | e2
        · rw [andThen_err_none _ _ hdp, decideProposal_s]
          rw [andThen_err_none _ _ rfl]
          simp only []
          split
          · exact fun h =>
              absurd (show RoundStepType.Propose = RoundStepType.Commit from
                enterPrevote_pb _ hh r h) (by decide)
          · exact fun h =>
              absurd (show RoundStepType.Propose = RoundStepType.Commit from h) (by decide)
        · rw [andThen_err_some _ _ _ hdp, decideProposal_s]
          exact fun h => h

theorem enterNewRound_pb (s : SMState) (hh : Nat) (r : Int) :
    (enterNewRound s hh r).s.step = RoundStepType.Commit → s.step = RoundStepType.Commit := by
  unfold enterNewRound
  split
  · exact fun h => h
  · split <;> split <;> split <;>
      first
        | exact fun h =>
            absurd (show RoundStepType.NewRound = RoundStepType.Commit from h) (by decide)
        | exact fun h =>
            absurd (show RoundStepType.NewRound = RoundStepType.Commit from
              enterPropose_pb _ hh r h) (by decide)

theorem enterNewRound_cases (s : SMState) (hh : Nat) (r : Int) :
    enterNewRound s hh r = Res.ok s ∨
      ¬((enterNewRound s hh r).s.step = RoundStepType.Commit) := by
  unfold enterNewRound
  split
  · exact Or.inl rfl
  · refine Or.inr ?_
    split <;> split <;> split <;>
      first
        | exact fun h =>
            absurd (show RoundStepType.NewRound = RoundStepType.Commit from h) (by decide)
        | exact fun h =>
            absurd (show RoundStepType.NewRound = RoundStepType.Commit from
              enterPropose_pb _ hh r h) (by decide)

theorem newBlockHeaderF_pb (s : SMState) (hn : Nat) (hhash : Bytes) (vals : ValidatorSet) :
    (newBlockHeaderF s hn hhash vals).s.step = RoundStepType.Commit →
      s.step = RoundStepType.Commit := by
  unfold newBlockHeaderF
  split
  · exact fun h => h
  · simp only []
    exact fun h =>
      absurd (show RoundStepType.NewHeight = RoundStepType.Commit from h) (by decide)

theorem prevoteBody_pb (s : SMState) (v : Vote) :
    (prevoteBody s v).s.step = RoundStepType.Commit → s.step = RoundStepType.Commit := by
  unfold prevoteBody
  simp only []
  refine pb_andThen _ _ ?_ ?_
  · split
    · exact fun h => h
    · refine pb_andThen _ _ ?_ ?_
      · split
        · split
          · exact fun h => h
          · exact fun h => h
        · exact fun h => h
      · intro x
        repeat' split
        all_goals exact fun h => h
  · intro x
    split
    · exact pb_andThen _ _ (fun h => h) (fun y h => enterNewRound_pb y y.height v.round h)
    · split
      · split
        · exact pb_andThen _ _ (fun h => h) (fun y h => enterPrecommit_pb y y.height v.round h)
        · split
          · exact pb_andThen _ _ (fun h => h)
              (fun y h => enterPrevoteWait_pb y y.height v.round h)
          · exact fun h => h
      · split
        · split
          · split
            · exact pb_andThen _ _ (fun h => h)
                (fun y h => enterPrevote_pb y y.height y.round h)
            · exact fun h => h
          · exact fun h => h
        · exact fun h => h

theorem addProposalBlock_pb (s : SMState) (b : Block) :
    (addProposalBlock s b).s.step = RoundStepType.Commit → s.step = RoundStepType.Commit := by
  unfold addProposalBlock
  split
  · exact fun h => h
  · split
    · exact fun h => h
    · split
      · exact fun h => h
      · simp only []
        repeat' split
        all_goals
          first
            | exact fun h => h
            | exact pb_andThen _ _ (fun h => h)
                (fun x => pb_andThen _ _ (fun h2 => enterPrevote_pb x x.height x.round h2)
                  (fun y => pb_andThen _ _ (fun h3 => h3)
                    (fun z h3 => enterPrecommit_pb z z.height z.round h3)))
            | exact pb_andThen _ _ (fun h => h)
                (fun x => pb_andThen _ _ (fun h2 => enterPrevote_pb x x.height x.round h2)
                  (fun y h2 => h2))
            | exact pb_andThen _ _ (fun h => h)
                (fun x h2 => by rw [tryFinalizeCommit_s] at h2; exact h2)

theorem handleTimeout_pb (s : SMState) (ti : TimeoutInfo) :
    (handleTimeout s ti).s.step = RoundStepType.Commit → s.step = RoundStepType.Commit := by
  unfold handleTimeout
  split
  · exact fun h => h
  · refine pb_andThen _ _ ?_ ?_
    · split
      · exact pb_andThen _ _ (fun h => h)
          (fun x => pb_andThen _ _ (fun h2 => h2) (fun y h2 => enterNewRound_pb y ti.height 0 h2))
      · exact fun h => h
    · intro a1
      refine pb_andThen _ _ ?_ ?_
      · split
        · exact pb_andThen _ _ (fun h => h)
            (fun x => pb_andThen _ _ (fun h2 => h2)
              (fun y h2 => enterPropose_pb y ti.height 0 h2))
        · exact fun h => h
      · intro a2
        refine pb_andThen _ _ ?_ ?_
        · split
          · exact pb_andThen _ _ (fun h => h)
              (fun x => pb_andThen _ _ (fun h2 => h2)
                (fun y h2 => enterPrevote_pb y ti.height ti.round h2))
          · exact fun h => h
        · intro a3
          refine pb_andThen _ _ ?_ ?_
          · split
            · exact pb_andThen _ _ (fun h => h)
                (fun x => pb_andThen _ _ (fun h2 => h2)
                  (fun y h2 => enterPrecommit_pb y ti.height ti.round h2))
            · exact fun h => h
          · intro a4
            refine pb_andThen _ _ ?_ ?_
            · split
              · exact pb_andThen _ _ (fun h => h)
                  (fun x => pb_andThen _ _ (fun h2 => h2)
                    (fun y => pb_andThen _ _ (fun h3 => enterPrecommit_pb y ti.height ti.round h3)
                      (fun z => pb_andThen _ _ (fun h4 => h4)
                        (fun w h4 => enterNewRound_pb w ti.height (ti.round + 1) h4))))
              · exact fun h => h
            · intro a5
              exact fun h => h

theorem lookupRvs_append (l m : List (Int × RoundVoteSet)) (r0 : Int) (rv : RoundVoteSet)
    (h : lookupRvs l r0 = some rv) : lookupRvs (l ++ m) r0 = some rv := by
  induction l with
  | nil => exact absurd h (by simp [lookupRvs])
  | cons p rest ih =>
    rcases p with ⟨r1, x1⟩
    simp only [lookupRvs, List.cons_append] at h ⊢
    split at h
    · rename_i hcond
      rw [if_pos hcond]
      exact h
    · rename_i hcond
      rw [if_neg hcond]
      exact ih h

theorem insertRvs_pres (l : List (Int × RoundVoteSet)) (k r0 : Int) (x rv : RoundVoteSet)
    (h : lookupRvs l r0 = some rv) : lookupRvs (insertRvs l k x) r0 = some rv := by
  unfold insertRvs
  split
  · exact h
  · exact lookupRvs_append _ _ _ _ h

theorem foldl_insert_pres (hh : Nat) (powers : List Nat) (r0 : Int) (rv : RoundVoteSet) :
    ∀ (ks : List Int) (acc : List (Int × RoundVoteSet)),
      lookupRvs acc r0 = some rv →
      lookupRvs (ks.foldl
        (fun a k => insertRvs a k (RoundVoteSet.new hh k powers)) acc) r0 = some rv := by
  intro ks
  induction ks with
  | nil => exact fun acc h => h
  | cons k rest ih =>
    intro acc h
    exact ih _ (insertRvs_pres _ _ _ _ _ h)

theorem setRound_pres (hvs : HeightVoteSet) (r r0 : Int) (vs : VoteSet)
    (h : hvs.precommits r0 = some vs) : (hvs.setRound r).precommits r0 = some vs := by
  unfold HeightVoteSet.setRound
  split
  · exact h
  · unfold HeightVoteSet.precommits at h ⊢
    rcases Option.map_eq_some'.mp h with ⟨rv, hrv, hpc⟩
    unfold ensureRounds
    simp only []
    rw [foldl_insert_pres _ _ _ _ _ _ hrv]
    exact congrArg some hpc

theorem signVote_votes (s : SMState) (t : VoteType) (h : Bytes) :
    (signVote s t h).s.votes = s.votes := by
  rw [signVote_s]

theorem enterPrevote_votes (s : SMState) (hh : Nat) (r : Int) :
    (enterPrevote s hh r).s.votes = s.votes := by
  unfold enterPrevote
  split
  · rfl
  · split
    · rw [andThen_err_none _ _ (signVote_err _ _ _), signVote_s]
      rfl
    · split
      · rw [andThen_err_none _ _ (signVote_err _ _ _), signVote_s]
        rfl
      · rw [andThen_err_none _ _ (signVote_err _ _ _), signVote_s]
        rfl

theorem enterPrecommit_votes (s : SMState) (hh : Nat) (r : Int) :
    (enterPrecommit s hh r).s.votes = s.votes := by
  unfold enterPrecommit
  split
  · rfl
  · split
    · rw [andThen_err_none _ _ (signVote_err _ _ _), signVote_s]
      rfl
    · split
      · rfl
      · split
        · split
          · rw [ok_andThen, andThen_err_none _ _ (signVote_err _ _ _), signVote_s]
            rfl
          · rw [out1_andThen, andThen_err_none _ _ (signVote_err _ _ _), signVote_s]
            rfl
        · split
          · rw [andThen_err_none _ _ (signVote_err _ _ _), signVote_s]
            rfl
          · split
            · rw [andThen_err_none _ _ (signVote_err _ _ _), signVote_s]
              rfl
            · rw [out1_andThen]
              simp only []
              split
              · rw [andThen_err_none _ _ (signVote_err _ _ _), signVote_s]
                rfl
              · rw [andThen_err_none _ _ (signVote_err _ _ _), signVote_s]
                rfl

theorem enterPropose_votes (s : SMState) (hh : Nat) (r : Int) :
    (enterPropose s hh r).s.votes = s.votes := by
  unfold enterPropose
  split
  · rfl
  · rw [out1_andThen]
    simp only []
    split
    · rw [andThen_err_none _ _ rfl]
      simp only []
      split
      · rw [out1_andThen]
        simp only []
        rw [enterPrevote_votes]
        rfl
      · rfl
    · split
      · rw [andThen_err_none _ _ rfl]
        simp only []
        split
        · rw [out1_andThen]
          simp only []
          rw [enterPrevote_votes]
          rfl
        · rfl
      · rcases hdp : (decideProposal s hh r).err with _ | e2
        · rw [andThen_err_none _ _ hdp, decideProposal_s]
          rw [andThen_err_none _ _ rfl]
          simp only []
          split
          · rw [out1_andThen]
            simp only []
            rw [enterPrevote_votes]
            rfl
          · rfl
        · rw [andThen_err_some _ _ _ hdp, decideProposal_s]

theorem enterNewRound_pres (s : SMState) (hh : Nat) (r r0 : Int) (vs : VoteSet)
    (h : s.votes.precommits r0 = some vs) :
    (enterNewRound s hh r).s.votes.precommits r0 = some vs := by
  unfold enterNewRound
  split
  · exact h
  · split <;> split <;> split <;>
      first
        | exact setRound_pres _ _ _ _ h
        | (rw [out1_andThen]
           simp only []
           rw [enterPropose_votes]
           exact setRound_pres _ _ _ _ h)

theorem step_idx_commit (st : RoundStepType)
    (h : RoundStepType.Commit.idx ≤ st.idx) : st = RoundStepType.Commit := by
  cases st <;> first | rfl | exact absurd h (by decide)

theorem enterCommit_c2 (x : SMState) (cr : Int) (m : Bytes)
    (hm : ((x.votes.precommits cr).bind (·.maj23)) = some m)
    (hs : ¬(x.step = RoundStepType.Commit)) :
    (enterCommit x x.height cr).s.step = RoundStepType.Commit ∧
    (enterCommit x x.height cr).s.commitRound = cr ∧
    (enterCommit x x.height cr).s.votes = x.votes := by
  unfold enterCommit
  rw [if_neg (show ¬(¬(x.height = x.height) ∨ RoundStepType.Commit.idx ≤ x.step.idx) from
    fun hc => hc.elim (fun h => h rfl) (fun h => hs (step_idx_commit _ h)))]
  simp only [hm]
  split <;> split <;>
    first
      | (rw [andThen_err_none _ _ rfl]
         simp only []
         rw [out1_andThen]
         simp only []
         rw [tryFinalizeCommit_s]
         exact ⟨rfl, rfl, rfl⟩)
      | (split <;>
          (rw [andThen_err_none _ _ rfl]
           simp only []
           rw [out1_andThen]
           simp only []
           rw [tryFinalizeCommit_s]
           exact ⟨rfl, rfl, rfl⟩))

theorem commit_tail_c2 (x : SMState) (rnd : Int) (m : Bytes)
    (hm : ((x.votes.precommits rnd).bind (·.maj23)) = some m)
    (hne : ¬(isEmptyHash m = true))
    (hx : ¬(x.step = RoundStepType.Commit)) :
    CommitOK (((enterCommit x x.height rnd).andThen (fun s =>
      if SkipTimeoutCommit then
        (Res.out1 s (Output.call CallTag.enterNewRound s.height 0)).andThen
          (fun s => enterNewRound s s.height 0)
      else Res.ok s)).s) := by
  obtain ⟨hstep, hcr, hv⟩ := enterCommit_c2 x rnd m hm hx
  have hyok : CommitOK (enterCommit x x.height rnd).s := by
    intro _
    refine ⟨m, ?_, hne⟩
    rw [hv, hcr]
    exact hm
  rcases andThen_s_or (enterCommit x x.height rnd) _ with h | h
  · rw [h]
    exact hyok
  · rw [h]
    rw [if_pos (show SkipTimeoutCommit = true from rfl)]
    rw [out1_andThen]
    simp only []
    rcases enterNewRound_cases (enterCommit x x.height rnd).s
        (enterCommit x x.height rnd).s.height 0 with hok | hno
    · rw [hok]
      exact hyok
    · exact fun hc => absurd hc hno

theorem precommitBody_c2 (s : SMState) (v : Vote)
    (hs : ¬(s.step = RoundStepType.Commit)) : CommitOK (precommitBody s v).s := by
  unfold precommitBody
  simp only []
  split
  · rename_i m hm
    rw [out1_andThen]
    simp only []
    rcases hen : (enterNewRound s s.height v.round).err with _ | e
    · rw [andThen_err_none _ _ hen]
      simp only []
      rw [out1_andThen]
      simp only []
      have hs2 : ¬((enterNewRound s s.height v.round).s.step = RoundStepType.Commit) :=
        fun hc => hs (enterNewRound_pb _ _ _ hc)
      rcases hep : (enterPrecommit (enterNewRound s s.height v.round).s
          (enterNewRound s s.height v.round).s.height v.round).err with _ | e2
      · rw [andThen_err_none _ _ hep]
        simp only []
        have hs3 : ¬((enterPrecommit (enterNewRound s s.height v.round).s
            (enterNewRound s s.height v.round).s.height v.round).s.step =
              RoundStepType.Commit) :=
          fun hc => hs2 (enterPrecommit_pb _ _ _ hc)
        have hm3 : (((enterPrecommit (enterNewRound s s.height v.round).s
            (enterNewRound s s.height v.round).s.height v.round).s.votes.precommits
              v.round).bind (·.maj23)) = some m := by
          rw [enterPrecommit_votes]
          rcases Option.bind_eq_some.mp hm with ⟨vs, hvs, hmaj⟩
          rw [enterNewRound_pres s s.height v.round v.round vs hvs]
          exact hmaj
        split
        · rename_i hne
          rw [out1_andThen]
          simp only []
          exact commit_tail_c2 _ v.round m hm3 hne hs3
        · rw [out1_andThen]
          simp only []
          intro hc
          have hc2 : (enterPrecommitWait (enterPrecommit (enterNewRound s s.height v.round).s
              (enterNewRound s s.height v.round).s.height v.round).s
              (enterPrecommit (enterNewRound s s.height v.round).s
                (enterNewRound s s.height v.round).s.height v.round).s.height
              v.round).s.step = RoundStepType.Commit := hc
          rw [enterPrecommitWait_step] at hc2
          exact absurd hc2 hs3
      · rw [andThen_err_some _ _ _ hep]
        exact fun hc => absurd (enterPrecommit_pb _ _ _ hc) hs2
    · rw [andThen_err_some _ _ _ hen]
      exact fun hc => absurd (enterNewRound_pb _ _ _ hc) hs
  · split
    · rw [out1_andThen]
      simp only []
      refine commitOK_andThen _ _ (fun hc => hs (enterNewRound_pb _ _ _ hc)) ?_
      intro x hx
      intro hc
      have hc2 : (enterPrecommitWait x x.height v.round).s.step = RoundStepType.Commit := hc
      rw [enterPrecommitWait_step] at hc2
      exact absurd hc2 hx
    · exact fun hc => absurd hc hs

theorem addVote_c2 (s : SMState) (v : Vote) (pid : String)
    (hs : ¬(s.step = RoundStepType.Commit)) : CommitOK (addVote s v pid).s := by
  unfold addVote
  split
  · exact fun hc => absurd hc hs
  · unfold addVoteCore
    split
    · exact fun hc => absurd hc hs
    · simp only []
      refine commitOK_andThen _ _ hs ?_
      intro x hx
      rw [andThen_fail_s]
      refine commitOK_andThen _ _ ?_ ?_
      · split
        · exact fun hc => hx (prevoteBody_pb _ _ hc)
        · exact hx
      · intro y hy
        split
        · exact precommitBody_c2 y v hy
        · exact fun hc => absurd hc hy

/-- C2: whenever an event moves the machine to step Commit, the final state
carries a non-nil two-thirds precommit majority for its commit round: the
only path to step Commit is `enterCommit`, which is reached solely from the
precommit vote dispatch under a recorded non-nil `precommits(r).maj23`, and
that majority survives into the post-event state. -/
theorem C2_commit_requires_precommits :
    ∀ (s : SMState) (e : Event),
      ¬(s.step = RoundStepType.Commit) →
      (handleEvent s e).s.step = RoundStepType.Commit →
      ∃ m, (((handleEvent s e).s.votes.precommits (handleEvent s e).s.commitRound).bind
          (·.maj23)) = some m ∧ ¬(isEmptyHash m = true) := by
  intro s e hs
  have hok : CommitOK (handleEvent s e).s := by
    cases e with
    | propMsg p =>
      show CommitOK (setProposal s p).s
      exact fun hc => absurd (setProposal_step s p ▸ hc) hs
    | blockMsg b =>
      show CommitOK (addProposalBlock s b).s
      exact fun hc => absurd (addProposalBlock_pb s b hc) hs
    | voteMsg v pid =>
      show CommitOK (tryAddVote s v pid).s
      rw [tryAddVote_s]
      exact addVote_c2 s v pid hs
    | timeout ti =>
      show CommitOK (handleTimeout s ti).s
      exact fun hc => absurd (handleTimeout_pb s ti hc) hs
    | newHeader hn hhash vals =>
      show CommitOK (newBlockHeaderF s hn hhash vals).s
      exact fun hc => absurd (newBlockHeaderF_pb s hn hhash vals hc) hs
  exact hok

/-- Witness for C2 at `cs2`: the precommit of validator 2 completes the
round-0 majority for `h1` and the dispatch commits the block. -/
theorem C2_witness :
    ¬(cs2.step = RoundStepType.Commit) ∧
    (handleEvent cs2 (Event.voteMsg (pcv 2 0 h1) "a")).s.step = RoundStepType.Commit ∧
    ∃ m, (((handleEvent cs2 (Event.voteMsg (pcv 2 0 h1) "a")).s.votes.precommits
        (handleEvent cs2 (Event.voteMsg (pcv 2 0 h1) "a")).s.commitRound).bind
        (·.maj23)) = some m ∧ ¬(isEmptyHash m = true) :=
  ⟨by decide, by decide,
   C2_commit_requires_precommits cs2 (Event.voteMsg (pcv 2 0 h1) "a") (by decide) (by decide)⟩

theorem inv_andThen (r : Res) (f : SMState → Res) (P : SMState → Prop)
    (h1 : P r.s) (hf : ∀ x, P x → P (f x).s) : P ((r.andThen f).s) := by
  rcases andThen_s_or r f with h | h
  · rw [h]
    exact h1
  · rw [h]
    exact hf _ h1

theorem enterPrevote_inv (s : SMState) (hh : Nat) (r : Int) (h : LockInv s) :
    LockInv (enterPrevote s hh r).s := by
  unfold enterPrevote
  split
  · exact h
  · rename_i hg
    have hB : ¬(r < s.round) := fun hb => hg (Or.inr (Or.inl hb))
    obtain ⟨h0, hl⟩ := h
    have hk : (0 : Int) ≤ r ∧ s.lockedRound ≤ r := by omega
    split
    · rw [andThen_err_none _ _ (signVote_err _ _ _), signVote_s]
      exact ⟨hk.1, hk.2⟩
    · split
      · rw [andThen_err_none _ _ (signVote_err _ _ _), signVote_s]
        exact ⟨hk.1, hk.2⟩
      · rw [andThen_err_none _ _ (signVote_err _ _ _), signVote_s]
        exact ⟨hk.1, hk.2⟩

theorem enterPrevoteWait_inv (s : SMState) (hh : Nat) (r : Int) (h : LockInv s) :
    LockInv (enterPrevoteWait s hh r).s := by
  unfold enterPrevoteWait
  split
  · exact h
  · rename_i hg
    have hB : ¬(r < s.round) := fun hb => hg (Or.inr (Or.inl hb))
    obtain ⟨h0, hl⟩ := h
    have hk : (0 : Int) ≤ r ∧ s.lockedRound ≤ r := by omega
    split
    · exact ⟨h0, hl⟩
    · rw [out1_andThen]
      exact ⟨hk.1, hk.2⟩

theorem enterPrecommitWait_inv (s : SMState) (hh : Nat) (r : Int) (h : LockInv s) :
    LockInv (enterPrecommitWait s hh r).s := by
  unfold enterPrecommitWait
  split
  · exact h
  · split
    · exact h
    · rw [out1_andThen]
      exact ⟨h.1, h.2⟩

theorem enterPrecommit_inv (s : SMState) (hh : Nat) (r : Int) (h : LockInv s) :
    LockInv (enterPrecommit s hh r).s := by
  unfold enterPrecommit
  split
  · exact h
  · rename_i hg
    have hB : ¬(r < s.round) := fun hb => hg (Or.inr (Or.inl hb))
    obtain ⟨h0, hl⟩ := h
    have hk0 : (0 : Int) ≤ r := by omega
    have hkl : s.lockedRound ≤ r := by omega
    have hkm : (-1 : Int) ≤ r := by omega
    split
    · rw [andThen_err_none _ _ (signVote_err _ _ _), signVote_s]
      exact ⟨hk0, hkl⟩
    · split
      · exact ⟨h0, hl⟩
      · split
        · split
          · rw [ok_andThen, andThen_err_none _ _ (signVote_err _ _ _), signVote_s]
            exact ⟨hk0, hkl⟩
          · rw [out1_andThen, andThen_err_none _ _ (signVote_err _ _ _), signVote_s]
            exact ⟨hk0, hkm⟩
        · split
          · rw [andThen_err_none _ _ (signVote_err _ _ _), signVote_s]
            exact ⟨hk0, le_refl r⟩
          · split
            · rw [andThen_err_none _ _ (signVote_err _ _ _), signVote_s]
              exact ⟨hk0, le_refl r⟩
            · rw [out1_andThen]
              simp only []
              split
              · rw [andThen_err_none _ _ (signVote_err _ _ _), signVote_s]
                exact ⟨hk0, hkm⟩
              · rw [andThen_err_none _ _ (signVote_err _ _ _), signVote_s]
                exact ⟨hk0, hkm⟩

theorem enterPropose_inv (s : SMState) (hh : Nat) (r : Int) (h : LockInv s) :
    LockInv (enterPropose s hh r).s := by
  unfold enterPropose
  split
  · exact h
  · rename_i hg
    have hB : ¬(r < s.round) := fun hb => hg (Or.inr (Or.inl hb))
    obtain ⟨h0, hl⟩ := h
    have hk : (0 : Int) ≤ r ∧ s.lockedRound ≤ r := by omega
    rw [out1_andThen]
    simp only []
    split
    · rw [andThen_err_none _ _ rfl]
      simp only []
      split
      · exact inv_andThen _ _ LockInv ⟨hk.1, hk.2⟩ (fun x hx => enterPrevote_inv x hh r hx)
      · exact ⟨hk.1, hk.2⟩
    · split
      · rw [andThen_err_none _ _ rfl]
        simp only []
        split
        · exact inv_andThen _ _ LockInv ⟨hk.1, hk.2⟩ (fun x hx => enterPrevote_inv x hh r hx)
        · exact ⟨hk.1, hk.2⟩
      · rcases hdp : (decideProposal s hh r).err with _ | e2
        · rw [andThen_err_none _ _ hdp, decideProposal_s]
          rw [andThen_err_none _ _ rfl]
          simp only []
          split
          · exact inv_andThen _ _ LockInv ⟨hk.1, hk.2⟩ (fun x hx => enterPrevote_inv x hh r hx)
          · exact ⟨hk.1, hk.2⟩
        · rw [andThen_err_some _ _ _ hdp, decideProposal_s]
          exact ⟨h0, hl⟩

theorem enterNewRound_inv (s : SMState) (hh : Nat) (r : Int) (h : LockInv s) :
    LockInv (enterNewRound s hh r).s := by
  unfold enterNewRound
  split
  · exact h
  · rename_i hg
    have hB : ¬(r < s.round) := fun hb => hg (Or.inr (Or.inl hb))
    obtain ⟨h0, hl⟩ := h
    have hk : (0 : Int) ≤ r ∧ s.lockedRound ≤ r := by omega
    split <;> split <;> split <;>
      first
        | exact inv_andThen _ _ LockInv ⟨hk.1, hk.2⟩ (fun x hx => enterPropose_inv x hh r hx)
        | (split <;> exact ⟨hk.1, hk.2⟩)

theorem enterCommit_inv (s : SMState) (hh : Nat) (cr : Int) (h : LockInv s) :
    LockInv (enterCommit s hh cr).s := by
  unfold enterCommit
  split
  · exact h
  · split
    · exact h
    · simp only []
      split <;> split <;>
        first
          | exact inv_andThen _ _ LockInv ⟨h.1, h.2⟩
              (fun x hx => inv_andThen _ _ LockInv hx
                (fun y hy => by rw [tryFinalizeCommit_s]; exact hy))
          | (split <;>
              exact inv_andThen _ _ LockInv ⟨h.1, h.2⟩
                (fun x hx => inv_andThen _ _ LockInv hx
                  (fun y hy => by rw [tryFinalizeCommit_s]; exact hy)))

theorem setProposal_inv (s : SMState) (p : Proposal) (h : LockInv s) :
    LockInv (setProposal s p).s := by
  unfold setProposal
  split
  · exact h
  · split
    · exact h
    · split
      · exact h
      · split
        · exact h
        · simp only []
          split
          · exact ⟨h.1, h.2⟩
          · exact ⟨h.1, h.2⟩

theorem addProposalBlock_inv (s : SMState) (b : Block) (h : LockInv s) :
    LockInv (addProposalBlock s b).s := by
  unfold addProposalBlock
  split
  · exact h
  · split
    · exact h
    · split
      · exact h
      · simp only []
        repeat' split
        all_goals
          first
            | exact ⟨h.1, h.2⟩
            | exact inv_andThen _ _ LockInv ⟨h.1, h.2⟩
                (fun x hx => inv_andThen _ _ LockInv (enterPrevote_inv x x.height x.round hx)
                  (fun y hy => inv_andThen _ _ LockInv hy
                    (fun z hz => enterPrecommit_inv z z.height z.round hz)))
            | exact inv_andThen _ _ LockInv ⟨h.1, h.2⟩
                (fun x hx => inv_andThen _ _ LockInv (enterPrevote_inv x x.height x.round hx)
                  (fun y hy => hy))
            | exact inv_andThen _ _ LockInv ⟨h.1, h.2⟩
                (fun x hx => by rw [tryFinalizeCommit_s]; exact hx)

theorem prevoteBody_inv (s : SMState) (v : Vote) (h : LockInv s) :
    LockInv (prevoteBody s v).s := by
  unfold prevoteBody
  simp only []
  obtain ⟨h0, hl⟩ := h
  refine inv_andThen _ _ LockInv ?_ ?_
  · split
    · exact ⟨h0, hl⟩
    · refine inv_andThen _ _ LockInv ?_ ?_
      · split
        · split
          · exact ⟨h0, show (-1 : Int) ≤ s.round by omega⟩
          · exact ⟨h0, hl⟩
        · exact ⟨h0, hl⟩
      · intro x hx
        repeat' split
        all_goals exact ⟨hx.1, hx.2⟩
  · intro x hx
    split
    · exact inv_andThen _ _ LockInv hx (fun y hy => enterNewRound_inv y y.height v.round hy)
    · split
      · split
        · exact inv_andThen _ _ LockInv hx (fun y hy => enterPrecommit_inv y y.height v.round hy)
        · split
          · exact inv_andThen _ _ LockInv hx
              (fun y hy => enterPrevoteWait_inv y y.height v.round hy)
          · exact hx
      · split
        · split
          · split
            · exact inv_andThen _ _ LockInv hx
                (fun y hy => enterPrevote_inv y y.height y.round hy)
            · exact hx
          · exact hx
        · exact hx

theorem precommitBody_inv (s : SMState) (v : Vote) (h : LockInv s) :
    LockInv (precommitBody s v).s := by
  unfold precommitBody
  simp only []
  split
  · refine inv_andThen _ _ LockInv ⟨h.1, h.2⟩ ?_
    intro x hx
    refine inv_andThen _ _ LockInv (enterNewRound_inv x x.height v.round hx) ?_
    intro y hy
    refine inv_andThen _ _ LockInv hy ?_
    intro z hz
    refine inv_andThen _ _ LockInv (enterPrecommit_inv z z.height v.round hz) ?_
    intro w hw
    split
    · refine inv_andThen _ _ LockInv hw ?_
      intro a ha
      refine inv_andThen _ _ LockInv (enterCommit_inv a a.height v.round ha) ?_
      intro c hc
      split
      · exact inv_andThen _ _ LockInv hc (fun d hd => enterNewRound_inv d d.height 0 hd)
      · exact hc
    · exact inv_andThen _ _ LockInv hw
        (fun a ha => enterPrecommitWait_inv a a.height v.round ha)
  · split
    · refine inv_andThen _ _ LockInv ⟨h.1, h.2⟩ ?_
      intro x hx
      refine inv_andThen _ _ LockInv (enterNewRound_inv x x.height v.round hx) ?_
      intro y hy
      exact inv_andThen _ _ LockInv hy
        (fun a ha => enterPrecommitWait_inv a a.height v.round ha)
    · exact h

theorem addVote_inv (s : SMState) (v : Vote) (pid : String) (h : LockInv s) :
    LockInv (addVote s v pid).s := by
  unfold addVote
  split
  · exact h
  · unfold addVoteCore
    split
    · exact h
    · simp only []
      refine inv_andThen _ _ LockInv ⟨h.1, h.2⟩ ?_
      intro x hx
      refine inv_andThen _ _ LockInv ?_ ?_
      · refine inv_andThen _ _ LockInv ?_ ?_
        · split
          · exact prevoteBody_inv x v hx
          · exact hx
        · intro y hy
          split
          · exact precommitBody_inv y v hy
          · exact hy
      · intro y hy
        exact hy

theorem tryAddVote_inv (s : SMState) (v : Vote) (pid : String) (h : LockInv s) :
    LockInv (tryAddVote s v pid).s := by
  rw [tryAddVote_s]
  exact addVote_inv s v pid h

theorem handleTimeout_inv (s : SMState) (ti : TimeoutInfo) (h : LockInv s) :
    LockInv (handleTimeout s ti).s := by
  unfold handleTimeout
  split
  · exact h
  · refine inv_andThen _ _ LockInv ?_ ?_
    · split
      · exact inv_andThen _ _ LockInv ⟨h.1, h.2⟩
          (fun x hx => inv_andThen _ _ LockInv hx
            (fun y hy => enterNewRound_inv y ti.height 0 hy))
      · exact h
    · intro a1 ha1
      refine inv_andThen _ _ LockInv ?_ ?_
      · split
        · exact inv_andThen _ _ LockInv ha1
            (fun x hx => inv_andThen _ _ LockInv hx
              (fun y hy => enterPropose_inv y ti.height 0 hy))
        · exact ha1
      · intro a2 ha2
        refine inv_andThen _ _ LockInv ?_ ?_
        · split
          · exact inv_andThen _ _ LockInv ha2
              (fun x hx => inv_andThen _ _ LockInv hx
                (fun y hy => enterPrevote_inv y ti.height ti.round hy))
          · exact ha2
        · intro a3 ha3
          refine inv_andThen _ _ LockInv ?_ ?_
          · split
            · exact inv_andThen _ _ LockInv ha3
                (fun x hx => inv_andThen _ _ LockInv hx
                  (fun y hy => enterPrecommit_inv y ti.height ti.round hy))
            · exact ha3
          · intro a4 ha4
            refine inv_andThen _ _ LockInv ?_ ?_
            · split
              · exact inv_andThen _ _ LockInv ha4
                  (fun x hx => inv_andThen _ _ LockInv hx
                    (fun y hy => inv_andThen _ _ LockInv
                      (enterPrecommit_inv y ti.height ti.round hy)
                      (fun z hz => inv_andThen _ _ LockInv hz
                        (fun w hw => enterNewRound_inv w ti.height (ti.round + 1) hw))))
              · exact ha4
            · intro a5 ha5
              exact ha5

theorem newBlockHeaderF_inv (s : SMState) (hn : Nat) (hhash : Bytes) (vals : ValidatorSet)
    (h : LockInv s) : LockInv (newBlockHeaderF s hn hhash vals).s := by
  unfold newBlockHeaderF
  split
  · exact h
  · simp only []
    rw [andThen_err_none _ _ rfl]
    exact ⟨show (0 : Int) ≤ 0 by decide, show (-1 : Int) ≤ 0 by decide⟩

theorem applyEvent_inv (s : SMState) (e : Event) (h : LockInv s) :
    LockInv (applyEvent s e) := by
  cases e with
  | propMsg p => exact setProposal_inv s p h
  | blockMsg b => exact addProposalBlock_inv s b h
  | voteMsg v pid => exact tryAddVote_inv s v pid h
  | timeout ti => exact handleTimeout_inv s ti h
  | newHeader hn hhash vals => exact newBlockHeaderF_inv s hn hhash vals h

theorem reachable_lockInv (s : SMState) (h : Reachable s) : LockInv s := by
  induction h with
  | init chainId signer pendingBlock headerNumber headerHash validators =>
    exact newBlockHeaderF_inv _ _ _ _
      ⟨show (0 : Int) ≤ 0 by decide, show (-1 : Int) ≤ 0 by decide⟩
  | step s2 e h2 ih => exact applyEvent_inv s2 e ih

theorem reachable_applyEvents (s : SMState) (es : List Event) (h : Reachable s) :
    Reachable (applyEvents s es) := by
  induction es generalizing s with
  | nil => exact h
  | cons e rest ih => exact ih (applyEvent s e) (Reachable.step s e h)

theorem mem_andThen (o : Output) (r : Res) (f : SMState → Res)
    (hm : o ∈ (r.andThen f).out) : o ∈ r.out ∨ o ∈ (f r.s).out := by
  unfold Res.andThen at hm
  split at hm
  · exact Or.inl hm
  · exact List.mem_append.mp hm

theorem notMem_andThen (o : Output) (r : Res) (f : SMState → Res)
    (h1 : ¬(o ∈ r.out)) (h2 : ∀ x, ¬(o ∈ (f x).out)) : ¬(o ∈ (r.andThen f).out) :=
  fun hm => (mem_andThen o r f hm).elim h1 (h2 _)

theorem signVote_out_mem (s : SMState) (t : VoteType) (hb : Bytes) (o : Output)
    (hm : o ∈ (signVote s t hb).out) : o = Output.signedVote t hb := by
  unfold signVote at hm
  repeat' split at hm
  all_goals
    first
      | exact absurd hm (List.not_mem_nil o)
      | exact List.mem_singleton.mp hm

theorem unlock_notMem_signVote (s : SMState) (t : VoteType) (hb : Bytes) :
    ¬(Output.unlock ∈ (signVote s t hb).out) :=
  fun hm => Output.noConfusion (signVote_out_mem s t hb _ hm)

theorem unlock_notMem_newStep (s : SMState) : ¬(Output.unlock ∈ (newStep s).out) :=
  fun hm => Output.noConfusion (List.mem_singleton.mp hm)

theorem enterPrevote_noUnlock (s : SMState) (hh : Nat) (r : Int) :
    ¬(Output.unlock ∈ (enterPrevote s hh r).out) := by
  unfold enterPrevote
  split
  · exact List.not_mem_nil _
  · split
    · exact notMem_andThen _ _ _ (unlock_notMem_signVote _ _ _)
        (fun x => unlock_notMem_newStep _)
    · split
      · exact notMem_andThen _ _ _ (unlock_notMem_signVote _ _ _)
          (fun x => unlock_notMem_newStep _)
      · exact notMem_andThen _ _ _ (unlock_notMem_signVote _ _ _)
          (fun x => unlock_notMem_newStep _)

theorem decideProposal_noUnlock (s : SMState) (hh : Nat) (r : Int) :
    ¬(Output.unlock ∈ (decideProposal s hh r).out) := by
  unfold decideProposal
  split
  · exact notMem_andThen _ _ _
      (fun hm => Output.noConfusion (List.mem_singleton.mp hm))
      (fun x hm => Output.noConfusion (List.mem_singleton.mp hm))
  · split
    · exact List.not_mem_nil _
    · exact notMem_andThen _ _ _
        (fun hm => Output.noConfusion (List.mem_singleton.mp hm))
        (fun x hm => Output.noConfusion (List.mem_singleton.mp hm))

theorem enterPropose_noUnlock (s : SMState) (hh : Nat) (r : Int) :
    ¬(Output.unlock ∈ (enterPropose s hh r).out) := by
  unfold enterPropose
  split
  · exact List.not_mem_nil _
  · refine notMem_andThen _ _ _
      (fun hm => Output.noConfusion (List.mem_singleton.mp hm)) ?_
    intro x
    split
    · refine notMem_andThen _ _ _ (unlock_notMem_newStep _) ?_
      intro y
      split
      · exact notMem_andThen _ _ _
          (fun hm => Output.noConfusion (List.mem_singleton.mp hm))
          (fun z => enterPrevote_noUnlock z hh r)
      · exact List.not_mem_nil _
    · split
      · refine notMem_andThen _ _ _ (unlock_notMem_newStep _) ?_
        intro y
        split
        · exact notMem_andThen _ _ _
            (fun hm => Output.noConfusion (List.mem_singleton.mp hm))
            (fun z => enterPrevote_noUnlock z hh r)
        · exact List.not_mem_nil _
      · refine notMem_andThen _ _ _ (decideProposal_noUnlock _ _ _) ?_
        intro x2
        refine notMem_andThen _ _ _ (unlock_notMem_newStep _) ?_
        intro y
        split
        · exact notMem_andThen _ _ _
            (fun hm => Output.noConfusion (List.mem_singleton.mp hm))
            (fun z => enterPrevote_noUnlock z hh r)
        · exact List.not_mem_nil _

theorem enterNewRound_noUnlock (s : SMState) (hh : Nat) (r : Int) :
    ¬(Output.unlock ∈ (enterNewRound s hh r).out) := by
  unfold enterNewRound
  split
  · exact List.not_mem_nil _
  · simp only []
    split
    · split
      · exact fun hm => Output.noConfusion (List.mem_singleton.mp hm)
      · exact List.not_mem_nil _
    · exact notMem_andThen _ _ _
        (fun hm => Output.noConfusion (List.mem_singleton.mp hm))
        (fun x => enterPropose_noUnlock x hh r)

theorem enterPrevoteWait_noUnlock (s : SMState) (hh : Nat) (r : Int) :
    ¬(Output.unlock ∈ (enterPrevoteWait s hh r).out) := by
  unfold enterPrevoteWait
  split
  · exact List.not_mem_nil _
  · split
    · exact List.not_mem_nil _
    · exact notMem_andThen _ _ _
        (fun hm => Output.noConfusion (List.mem_singleton.mp hm))
        (fun x => unlock_notMem_newStep _)

theorem enterPrecommit_signed (s : SMState) (hh : Nat) (r : Int) (t : VoteType) (hb : Bytes)
    (hm : Output.signedVote t hb ∈ (enterPrecommit s hh r).out) :
    t = VoteType.Precommit ∧
      (hb = EMPTY_HASH ∨
        (((s.votes.prevotes r).bind (·.maj23)) = some hb ∧
          (s.lockedBlock.map Block_hash = some hb ∨
            s.proposalBlock.map Block_hash = some hb))) := by
  unfold enterPrecommit at hm
  split at hm
  · exact absurd hm (List.not_mem_nil _)
  · split at hm
    · rcases mem_andThen _ _ _ hm with h | h
      · have he := signVote_out_mem _ _ _ _ h
        injection he with e1 e2
        exact ⟨e1, Or.inl e2⟩
      · exact Output.noConfusion (List.mem_singleton.mp h)
    · rename_i m heq
      split at hm
      · exact absurd hm (List.not_mem_nil _)
      · split at hm
        · rcases mem_andThen _ _ _ hm with h | h
          · split at h
            · exact absurd h (List.not_mem_nil _)
            · exact Output.noConfusion (List.mem_singleton.mp h)
          · rcases mem_andThen _ _ _ h with h2 | h2
            · have he := signVote_out_mem _ _ _ _ h2
              injection he with e1 e2
              exact ⟨e1, Or.inl e2⟩
            · exact Output.noConfusion (List.mem_singleton.mp h2)
        · split at hm
          · rename_i hlk
            rcases mem_andThen _ _ _ hm with h | h
            · have he := signVote_out_mem _ _ _ _ h
              injection he with e1 e2
              exact ⟨e1, Or.inr ⟨heq.trans (congrArg some e2).symm,
                Or.inl (hlk.trans (congrArg some e2).symm)⟩⟩
            · exact Output.noConfusion (List.mem_singleton.mp h)
          · split at hm
            · rename_i hpk
              rcases mem_andThen _ _ _ hm with h | h
              · have he := signVote_out_mem _ _ _ _ h
                injection he with e1 e2
                exact ⟨e1, Or.inr ⟨heq.trans (congrArg some e2).symm,
                  Or.inr (hpk.trans (congrArg some e2).symm)⟩⟩
              · exact Output.noConfusion (List.mem_singleton.mp h)
            · rcases mem_andThen _ _ _ hm with h | h
              · exact Output.noConfusion (List.mem_singleton.mp h)
              · rcases mem_andThen _ _ _ h with h2 | h2
                · have he := signVote_out_mem _ _ _ _ h2
                  injection he with e1 e2
                  exact ⟨e1, Or.inl e2⟩
                · exact Output.noConfusion (List.mem_singleton.mp h2)

theorem enterPrecommit_unlock (s : SMState) (hh : Nat) (r : Int)
    (hm : Output.unlock ∈ (enterPrecommit s hh r).out) :
    (∃ m, ((s.votes.prevotes r).bind (·.maj23)) = some m) ∧ ¬(r < s.round) := by
  unfold enterPrecommit at hm
  split at hm
  · exact absurd hm (List.not_mem_nil _)
  · rename_i hg
    have hB : ¬(r < s.round) := fun hb => hg (Or.inr (Or.inl hb))
    split at hm
    · rcases mem_andThen _ _ _ hm with h | h
      · exact Output.noConfusion (signVote_out_mem _ _ _ _ h)
      · exact Output.noConfusion (List.mem_singleton.mp h)
    · rename_i m heq
      exact ⟨⟨m, heq⟩, hB⟩

theorem prevoteBody_unlock (s : SMState) (v : Vote)
    (hm : Output.unlock ∈ (prevoteBody s v).out) :
    ∃ m, ((s.votes.prevotes v.round).bind (·.maj23)) = some m := by
  unfold prevoteBody at hm
  simp only [] at hm
  split at hm
  · rw [ok_andThen] at hm
    simp only [] at hm
    split at hm
    · rcases mem_andThen _ _ _ hm with h | h
      · exact Output.noConfusion (List.mem_singleton.mp h)
      · exact absurd h (enterNewRound_noUnlock _ _ _)
    · split at hm
      · split at hm
        · rcases mem_andThen _ _ _ hm with h | h
          · exact Output.noConfusion (List.mem_singleton.mp h)
          · exact (enterPrecommit_unlock _ _ _ h).1
        · split at hm
          · rcases mem_andThen _ _ _ hm with h | h
            · exact Output.noConfusion (List.mem_singleton.mp h)
            · exact absurd h (enterPrevoteWait_noUnlock _ _ _)
          · exact absurd hm (List.not_mem_nil _)
      · split at hm
        · split at hm
          · split at hm
            · rcases mem_andThen _ _ _ hm with h | h
              · exact Output.noConfusion (List.mem_singleton.mp h)
              · exact absurd h (enterPrevote_noUnlock _ _ _)
            · exact absurd hm (List.not_mem_nil _)
          · exact absurd hm (List.not_mem_nil _)
        · exact absurd hm (List.not_mem_nil _)
  · rename_i m heq
    exact ⟨m, heq⟩

/-- C1 counterexample: the reachable state `exLocked` is locked on `b1`
(from round 0) at round 1, and a round-1 prevote two-thirds majority for
`hash(b2)` is recorded.  Delivering the proposal block `b2` makes the machine
sign a precommit for `hash(b2)` — a hash that is neither `hash(lockedBlock)`
nor nil — without ever emitting an unlock: `enterPrecommit` silently re-locks
onto the proposal block (state.ts lines 642-647), so "it precommits a
different hash only after first unlocking" is false. -/
theorem C1_counterexample :
    Reachable exLocked ∧
    exLocked.lockedBlock = some b1 ∧
    exLocked.lockedRound = 0 ∧
    exLocked.round = 1 ∧
    ((exLocked.votes.prevotes 1).bind (·.maj23)) = some h2 ∧
    ¬(h2 = EMPTY_HASH) ∧ ¬(h2 = Block_hash b1) ∧
    Output.signedVote VoteType.Precommit h2 ∈ (handleEvent exLocked (Event.blockMsg b2)).out ∧
    ¬(Output.unlock ∈ (handleEvent exLocked (Event.blockMsg b2)).out) ∧
    (handleEvent exLocked (Event.blockMsg b2)).s.lockedBlock = some b2 ∧
    (handleEvent exLocked (Event.blockMsg b2)).s.lockedRound = 1 ∧
    (handleEvent exLocked (Event.blockMsg b2)).err = none :=
  ⟨reachable_applyEvents exInit exTrace (Reachable.init 1 (some 0) none 0 [] vals4),
   by decide, by decide, by decide, by decide, by decide, by decide,
   by decide, by decide, by decide, by decide, by decide⟩

/-- C1 (amended): every vote signed inside `enterPrecommit(h, r)` is a
precommit for either the nil hash or the round-`r` prevote majority hash,
and a non-nil majority hash is signed only when it matches the locked
block's hash or — the re-lock exception refuting the original claim — the
proposal block's hash; an unlock inside `enterPrecommit` happens only when a
round-`r` prevote majority exists and `r` is not behind the machine's round,
and an unlock inside the prevote handler only when a prevote majority for
the vote's round exists; finally every reachable state keeps
`0 ≤ round` and `lockedRound ≤ round`, so those unlock rounds are at least
`lockedRound`. -/
theorem C1_amended :
    (∀ (s : SMState) (hh : Nat) (r : Int) (t : VoteType) (hb : Bytes),
      Output.signedVote t hb ∈ (enterPrecommit s hh r).out →
        t = VoteType.Precommit ∧
          (hb = EMPTY_HASH ∨
            (((s.votes.prevotes r).bind (·.maj23)) = some hb ∧
              (s.lockedBlock.map Block_hash = some hb ∨
                s.proposalBlock.map Block_hash = some hb)))) ∧
    (∀ (s : SMState) (hh : Nat) (r : Int),
      Output.unlock ∈ (enterPrecommit s hh r).out →
        (∃ m, ((s.votes.prevotes r).bind (·.maj23)) = some m) ∧ ¬(r < s.round)) ∧
    (∀ (s : SMState) (v : Vote),
      Output.unlock ∈ (prevoteBody s v).out →
        ∃ m, ((s.votes.prevotes v.round).bind (·.maj23)) = some m) ∧
    (∀ s : SMState, Reachable s → 0 ≤ s.round ∧ s.lockedRound ≤ s.round) :=
  ⟨enterPrecommit_signed, enterPrecommit_unlock, prevoteBody_unlock,
   fun s h => reachable_lockInv s h⟩

/-- Witness for C1 amended: each conjunct applied at the reachable locked
state `exLocked` — the nil precommit signed by `enterPrecommit exLocked 1 1`,
the unlock it emits, the unlock emitted by the prevote handler on a round-1
prevote, and the round bounds of `exLocked` itself. -/
theorem C1_amended_witness :
    (VoteType.Precommit = VoteType.Precommit ∧
      (EMPTY_HASH = EMPTY_HASH ∨
        (((exLocked.votes.prevotes 1).bind (·.maj23)) = some EMPTY_HASH ∧
          (exLocked.lockedBlock.map Block_hash = some EMPTY_HASH ∨
            exLocked.proposalBlock.map Block_hash = some EMPTY_HASH)))) ∧
    ((∃ m, ((exLocked.votes.prevotes 1).bind (·.maj23)) = some m) ∧
      ¬((1 : Int) < exLocked.round)) ∧
    (∃ m, ((exLocked.votes.prevotes (pv 0 1 h2).round).bind (·.maj23)) = some m) ∧
    (0 ≤ exLocked.round ∧ exLocked.lockedRound ≤ exLocked.round) :=
  ⟨C1_amended.1 exLocked 1 1 VoteType.Precommit EMPTY_HASH (by decide),
   C1_amended.2.1 exLocked 1 1 (by decide),
   C1_amended.2.2.1 exLocked (pv 0 1 h2) (by decide),
   C1_amended.2.2.2 exLocked
     (reachable_applyEvents exInit exTrace (Reachable.init 1 (some 0) none 0 [] vals4))⟩

end Rei
